import Mathlib

set_option maxRecDepth 20000

/-!
# Verification of the finance-tracker statement-ingestion pipeline

This file shallowly embeds the ingestion pipeline of the repository
(CSV parsing, fingerprint hashing, transaction classification, and the
UOB bank / credit-card statement parsers) and proves properties about it.

Modelling conventions:
* JS strings are embedded as `List Char` (`Str`); `charCodeAt` / `.length`
  follow UTF-16 code units via `utf16Codes`.
* JS numbers are embedded as exact rationals `ℚ`.  All currency values the
  code manipulates are exact 2-decimal values, on which rational and IEEE
  double arithmetic agree for the operations used here (comparison,
  negation, absolute value, `toFixed(2)` rendering).
* JS 32-bit coercions (`x & x`, `<<`) are modelled by `toInt32`.
* Fallible code (thrown exceptions) is modelled with `Except`.
-/

/-- JS strings, embedded as lists of Unicode scalar values. -/
abbrev Str : Type := List Char

/-- Convenience conversion from Lean string literals. -/
def str (s : String) : Str := s.data

/-- The JS whitespace set used by `String.prototype.trim` and by `\s`
in regular expressions (ECMAScript WhiteSpace ∪ LineTerminator),
on Unicode scalar values. -/
def isJsWsNat (n : Nat) : Bool :=
  n = 9 || n = 10 || n = 11 || n = 12 || n = 13 || n = 32 || n = 160 ||
  n = 0x1680 || (0x2000 ≤ n && n ≤ 0x200A) || n = 0x2028 || n = 0x2029 ||
  n = 0x202F || n = 0x205F || n = 0x3000 || n = 0xFEFF

/-- JS whitespace test on a character. -/
def isJsWs (c : Char) : Bool := isJsWsNat c.toNat

/-- JS `String.prototype.trim`: drop leading and trailing whitespace. -/
def jsTrim (s : Str) : Str :=
  ((s.dropWhile isJsWs).reverse.dropWhile isJsWs).reverse

/-- Case mapping of one character, as JS `toLowerCase` acts on the ASCII
range (the descriptions and patterns in this code base are ASCII). -/
def jsLowerChar (c : Char) : Char :=
  if 65 ≤ c.toNat ∧ c.toNat ≤ 90 then Char.ofNat (c.toNat + 32) else c

/-- JS `String.prototype.toLowerCase` (ASCII fragment). -/
def jsToLowerCase (s : Str) : Str := s.map jsLowerChar

/-- UTF-16 code units of one character, as JS `charCodeAt` enumerates them. -/
def utf16Codes (c : Char) : List Nat :=
  let n := c.toNat
  if n < 0x10000 then [n]
  else [0xD800 + (n - 0x10000) / 0x400, 0xDC00 + (n - 0x10000) % 0x400]

/-- The UTF-16 code-unit sequence of a string. -/
def strUtf16 (s : Str) : List Nat := (s.map utf16Codes).flatten

/-- JS `ToInt32` — wrap an exact integer to the signed 32-bit range. -/
def toInt32 (n : Int) : Int := (n + 2 ^ 31) % 2 ^ 32 - 2 ^ 31

/-- One step of the hash loop in `generateTransactionHash`:
`hash = ((hash << 5) - hash) + char; hash = hash & hash`. -/
def hashStep (h : Int) (code : Nat) : Int :=
  toInt32 (toInt32 (h * 32) - h + code)

/-- The 32-bit string hash loop of `generateTransactionHash`. -/
def jsStringHash (s : Str) : Int := (strUtf16 s).foldl hashStep 0

/-- Decimal digits of a natural number. -/
def natDigits (n : Nat) : Str := (Nat.repr n).data

/-- Render an integer the way a JS template string renders an integral
number. -/
def intStr (i : Int) : Str :=
  if i < 0 then '-' :: natDigits i.natAbs else natDigits i.toNat

/-- Two-digit zero padding, as `String.prototype.padStart(2, '0')` acts on
the day/month components produced in this code base. -/
def pad2Nat (k : Nat) : Str := if k < 10 then '0' :: natDigits k else natDigits k

/-- `padStart(2, '0')` on a digit string. -/
def padStart2 (s : Str) : Str := if s.length < 2 then '0' :: s else s

/-- Digit character for `Number.prototype.toString(36)`. -/
def base36Digit (n : Nat) : Char :=
  if n < 10 then Char.ofNat (48 + n) else Char.ofNat (87 + n)

/-- Base-36 digit expansion (most significant first), empty on 0.
Fuel-structured so that the kernel can evaluate it; `fuel = n + 1`
always suffices since the argument at least halves each step. -/
def base36Go (fuel n : Nat) : Str :=
  match fuel with
  | 0 => []
  | fuel + 1 => if n = 0 then [] else base36Go fuel (n / 36) ++ [base36Digit (n % 36)]

/-- JS `Number.prototype.toString(36)` on a nonnegative integer. -/
def natToBase36 (n : Nat) : Str := if n = 0 then str "0" else base36Go (n + 1) n

/-- `⌊100 * x + 1/2⌋` computed on the numerator/denominator pair, so that
the kernel can evaluate it (ℚ `+`/`*` are irreducible). -/
def round100 (x : ℚ) : ℤ := Int.fdiv (200 * x.num + (x.den : ℤ)) (2 * (x.den : ℤ))

/-- JS `Number.prototype.toFixed(2)` on a nonnegative exact rational:
round to the closest hundredth, ties away from zero (ECMA: pick the
larger candidate). -/
def toFixed2NN (x : ℚ) : Str :=
  let n : Nat := (round100 x).toNat
  natDigits (n / 100) ++ str "." ++ pad2Nat (n % 100)

/-- JS `Number.prototype.toFixed(2)` on an exact rational. -/
def toFixed2 (x : ℚ) : Str :=
  if x < 0 then '-' :: toFixed2NN (-x) else toFixed2NN x

/-- The pipe-joined string hashed by `generateTransactionHash`:
`date + "|" + description.toLowerCase().trim() + "|" + amount.toFixed(2)`. -/
def hashBaseString (date description : Str) (amount : ℚ) : Str :=
  date ++ str "|" ++ jsTrim (jsToLowerCase description) ++ str "|" ++ toFixed2 amount

/-- `generateTransactionHash` from `src/utils/csvParser.ts`. -/
def generateTransactionHash (date description : Str) (amount : ℚ) : Str :=
  natToBase36 (jsStringHash (hashBaseString date description amount)).natAbs

theorem toNat_ofNat_of_lt {n : Nat} (h : n < 0xD800) : (Char.ofNat n).toNat = n := by
  have hv : n.isValidChar := Or.inl h
  simp only [Char.ofNat, hv, dif_pos, Char.ofNatAux, Char.toNat]
  rfl

theorem isJsWsNat_false {n : Nat} (h1 : 65 ≤ n) (h2 : n ≤ 127) :
    isJsWsNat n = false := by
  interval_cases n <;> decide

theorem isJsWs_jsLowerChar (c : Char) : isJsWs (jsLowerChar c) = isJsWs c := by
  unfold jsLowerChar
  by_cases h : 65 ≤ c.toNat ∧ c.toNat ≤ 90
  · rw [if_pos h]
    unfold isJsWs
    rw [toNat_ofNat_of_lt (by omega)]
    rw [isJsWsNat_false (by omega) (by omega), isJsWsNat_false (by omega) (by omega)]
  · rw [if_neg h]

theorem jsTrim_jsToLowerCase (s : Str) :
    jsTrim (jsToLowerCase s) = jsToLowerCase (jsTrim s) := by
  have hfun : (isJsWs ∘ jsLowerChar) = isJsWs := by
    funext c
    exact isJsWs_jsLowerChar c
  have hdw : ∀ t : Str, (t.map jsLowerChar).dropWhile isJsWs
      = (t.dropWhile isJsWs).map jsLowerChar := by
    intro t
    rw [List.dropWhile_map, hfun]
  simp only [jsTrim, jsToLowerCase]
  rw [hdw, ← List.map_reverse, hdw, List.map_reverse]

/-- **C1.** The transaction fingerprint is invariant under letter case and
surrounding whitespace of the description: whenever two descriptions agree
after trimming and lowercasing, `generateTransactionHash` produces the same
fingerprint string for the same date and amount. -/
theorem C1_fingerprint_case_whitespace_invariant
    (d s s' : Str) (a : ℚ)
    (h : jsToLowerCase (jsTrim s') = jsToLowerCase (jsTrim s)) :
    generateTransactionHash d s' a = generateTransactionHash d s a := by
  unfold generateTransactionHash hashBaseString
  rw [jsTrim_jsToLowerCase, jsTrim_jsToLowerCase, h]

/-- Witness for C1 at a concrete input: the all-uppercase, space-padded
description and the mixed-case description fingerprint identically. -/
theorem C1_fingerprint_case_whitespace_invariant_witness :
    jsToLowerCase (jsTrim (str "  NETS PURCHASE  "))
      = jsToLowerCase (jsTrim (str "NETS Purchase")) ∧
    generateTransactionHash (str "2026-01-05") (str "  NETS PURCHASE  ") (-456 / 10)
      = generateTransactionHash (str "2026-01-05") (str "NETS Purchase") (-456 / 10) :=
  ⟨by decide, C1_fingerprint_case_whitespace_invariant
    (str "2026-01-05") (str "NETS Purchase") (str "  NETS PURCHASE  ")
    (-456 / 10) (by decide)⟩

/-! ## Transaction classifier (`src/services/classificationService.ts`) -/

/-- `needle` occurs as a contiguous substring of `hay`
(JS `String.prototype.includes`). -/
def isSubstrOf (needle hay : Str) : Bool :=
  hay.tails.any (fun t => needle.isPrefixOf t)

/-- A character the regex `.` matches (anything but a line terminator;
the LS/PS terminators do not occur in this pipeline's data). -/
def isDotChar (c : Char) : Bool := !(c = '\n' || c = '\r')

/-- `q` occurs after a (possibly empty) gap of non-newline characters,
starting at the current position — the tail `.*q` of a regex. -/
def gapThen (q : Str) : Str → Bool
  | [] => q.isPrefixOf ([] : Str)
  | c :: cs => q.isPrefixOf (c :: cs) || (isDotChar c && gapThen q cs)

/-- Unanchored regex search for `p.*q`: some occurrence of `p` followed,
after non-newline characters, by `q`. -/
def matchAcross (p q s : Str) : Bool :=
  s.tails.any (fun t => p.isPrefixOf t && gapThen q (t.drop p.length))

/-- Any of the literal alternatives occurs as a substring. -/
def anySub (ps : List Str) (d : Str) : Bool := ps.any (fun p => isSubstrOf p d)

/-- `INCOME_KEYWORDS`. -/
def INCOME_KEYWORDS : List Str :=
  [str "salary", str "payroll", str "wages", str "bonus", str "commission",
   str "freelance", str "consulting"]

/-- `INVESTMENT_KEYWORDS`. -/
def INVESTMENT_KEYWORDS : List Str :=
  [str "interest", str "dividend", str "coupon", str "distribution",
   str "yield", str "capital gain"]

/-- `TRANSFER_PATTERNS` — the eight case-insensitive regexes, tested
against the (lowercased) description.  `pay(ment)? to.*card` expands to
the two literal alternatives around a `.*` gap. -/
def transferPatternTest (descLower : Str) : Bool :=
  isSubstrOf (str "credit card") descLower ||
  isSubstrOf (str "card payment") descLower ||
  matchAcross (str "pay to") (str "card") descLower ||
  matchAcross (str "payment to") (str "card") descLower ||
  isSubstrOf (str "transfer to") descLower ||
  isSubstrOf (str "transfer from") descLower ||
  isSubstrOf (str "internal transfer") descLower ||
  matchAcross (str "to") (str "brokerage") descLower ||
  matchAcross (str "from") (str "brokerage") descLower

/-- `TransactionType` from `src/models`. -/
inductive TransactionType
  | expense
  | income
  | investment
  | transfer
deriving DecidableEq, Repr

/-- `AccountType` from `src/models`. -/
inductive AccountType
  | bank
  | hysa
  | credit
  | brokerage
  | retirement
deriving DecidableEq, Repr

/-- `classifyTransaction` from `src/services/classificationService.ts`.
The source's pattern/keyword loops with early `return` are rendered with
`List.any`. -/
def classifyTransaction (description : Str) (amount : ℚ)
    (sourceAccountType : Option AccountType) : TransactionType :=
  let lowerDesc := jsToLowerCase description
  if sourceAccountType = some AccountType.bank ∧ transferPatternTest lowerDesc then
    TransactionType.transfer
  else if INCOME_KEYWORDS.any (fun k => isSubstrOf k lowerDesc) then
    TransactionType.income
  else if INVESTMENT_KEYWORDS.any (fun k => isSubstrOf k lowerDesc) then
    TransactionType.investment
  else if 0 < amount then TransactionType.income
  else TransactionType.expense

/-- The ordered `categoryPatterns` rule table of `suggestCategory`.
Each alternation regex is rendered as its list of literal alternatives
(`ez-?link` expands to both spellings). -/
def categoryPatterns : List ((Str → Bool) × Str) :=
  [(anySub [str "restaurant", str "cafe", str "coffee", str "starbucks",
            str "mcdonald", str "grab food", str "foodpanda", str "deliveroo"],
    str "Food & Dining"),
   (anySub [str "supermarket", str "fairprice", str "cold storage",
            str "sheng siong", str "ntuc"], str "Groceries"),
   (fun d => anySub [str "grab", str "gojek", str "comfort", str "taxi",
            str "uber", str "mrt", str "bus"] d ||
       isSubstrOf (str "ezlink") d || isSubstrOf (str "ez-link") d,
    str "Transport"),
   (anySub [str "petrol", str "gas", str "shell", str "esso", str "caltex",
            str "parking"], str "Transport"),
   (anySub [str "amazon", str "lazada", str "shopee", str "qoo10",
            str "taobao"], str "Online Shopping"),
   (anySub [str "uniqlo", str "h&m", str "zara", str "cotton on"],
    str "Clothing"),
   (anySub [str "singtel", str "starhub", str "m1", str "giga",
            str "sim only"], str "Phone"),
   (anySub [str "sp services", str "electricity", str "water", str "gas",
            str "utility"], str "Utilities"),
   (anySub [str "netflix", str "spotify", str "youtube", str "disney",
            str "hbo", str "subscription"], str "Subscriptions"),
   (anySub [str "rent", str "mortgage", str "hdb", str "condo",
            str "property"], str "Housing"),
   (anySub [str "insurance", str "prudential", str "aia",
            str "great eastern", str "ntuc income"], str "Insurance"),
   (anySub [str "clinic", str "hospital", str "pharmacy", str "guardian",
            str "watsons", str "doctor", str "medical"], str "Healthcare"),
   (anySub [str "gym", str "fitness", str "activsg", str "anytime fitness"],
    str "Fitness"),
   (anySub [str "salary", str "payroll", str "cpf", str "bonus"],
    str "Salary"),
   (anySub [str "interest", str "dividend"], str "Investment Income"),
   (anySub [str "refund", str "cashback"], str "Refund")]

/-- `suggestCategory`: first matching rule wins, default `"Other"`. -/
def suggestCategory (description : Str) : Str :=
  let lowerDesc := jsToLowerCase description
  match categoryPatterns.find? (fun pr => pr.1 lowerDesc) with
  | some pr => pr.2
  | none => str "Other"

/-- Canonical `Transaction` record from `src/models`. -/
structure Transaction where
  id : Str
  date : Str
  ownerId : Str
  accountId : Str
  type : TransactionType
  category : Str
  amount : ℚ
  description : Str
deriving DecidableEq, Repr

/-- `processTransaction` from `src/services/classificationService.ts`:
classify, categorize, and re-normalize the amount sign
(`Math.abs(amount) * (type === 'expense' ? -1 : 1)`). -/
def processTransaction (id date description : Str) (amount : ℚ)
    (ownerId accountId : Str) (sourceAccountType : Option AccountType) :
    Transaction :=
  let type := classifyTransaction description amount sourceAccountType
  let category := suggestCategory description
  { id := id, date := date, ownerId := ownerId, accountId := accountId,
    type := type, category := category,
    amount := abs amount * (if type = TransactionType.expense then -1 else 1),
    description := description }

/-- **C3.** The canonical transaction produced by `processTransaction`
carries amount `-|raw|` whenever its classified type is `expense`, and
`+|raw|` for every other type, regardless of the sign of the raw input
amount. -/
theorem C3_processTransaction_sign_normalization
    (id date desc : Str) (a : ℚ) (ow acc : Str) (src : Option AccountType) :
    ((processTransaction id date desc a ow acc src).type = TransactionType.expense →
      (processTransaction id date desc a ow acc src).amount = -(abs a)) ∧
    ((processTransaction id date desc a ow acc src).type ≠ TransactionType.expense →
      (processTransaction id date desc a ow acc src).amount = abs a) := by
  have hty : (processTransaction id date desc a ow acc src).type
      = classifyTransaction desc a src := rfl
  have ham : (processTransaction id date desc a ow acc src).amount
      = abs a * (if classifyTransaction desc a src = TransactionType.expense
          then -1 else 1) := rfl
  constructor
  · intro h
    rw [hty] at h
    rw [ham, if_pos h]
    ring
  · intro h
    rw [hty] at h
    rw [ham, if_neg h]
    ring

/-- Witness for C3: a positive-amount raw input classified as `expense`
comes out as `-|raw|`, and an income-classified input as `+|raw|`. -/
theorem C3_processTransaction_sign_normalization_witness :
    ((processTransaction (str "t1") (str "2026-01-05") (str "NETS PURCHASE")
        (mkRat (-456) 10) (str "o") (str "a") none).amount
        = -(abs (mkRat (-456) 10)) ∧
     (processTransaction (str "t2") (str "2026-01-31") (str "SALARY JAN")
        (-5000) (str "o") (str "a") none).amount = abs (-5000 : ℚ)) :=
  ⟨(C3_processTransaction_sign_normalization (str "t1") (str "2026-01-05")
      (str "NETS PURCHASE") (mkRat (-456) 10) (str "o") (str "a") none).1
      (by decide),
   (C3_processTransaction_sign_normalization (str "t2") (str "2026-01-31")
      (str "SALARY JAN") (-5000) (str "o") (str "a") none).2 (by decide)⟩

/-- **C7.** `classifyTransaction` returns `transfer` only when the source
account type is `bank` and a transfer pattern matches; in every other
case the classification proceeds in order: income keywords, then
investment keywords, then the sign default (positive ⇒ income,
otherwise expense). -/
theorem C7_classify_transfer_gated_on_bank
    (d : Str) (a : ℚ) (src : Option AccountType) :
    (classifyTransaction d a src = TransactionType.transfer →
      src = some AccountType.bank ∧
      transferPatternTest (jsToLowerCase d) = true) ∧
    (¬ (src = some AccountType.bank ∧
        transferPatternTest (jsToLowerCase d) = true) →
      classifyTransaction d a src =
        (if INCOME_KEYWORDS.any (fun k => isSubstrOf k (jsToLowerCase d)) then
          TransactionType.income
        else if INVESTMENT_KEYWORDS.any
            (fun k => isSubstrOf k (jsToLowerCase d)) then
          TransactionType.investment
        else if 0 < a then TransactionType.income
        else TransactionType.expense)) := by
  unfold classifyTransaction
  by_cases h : src = some AccountType.bank ∧
      transferPatternTest (jsToLowerCase d) = true
  · constructor
    · intro _
      exact h
    · intro hc
      exact absurd h hc
  · rw [if_neg h]
    constructor
    · intro hcon
      by_cases h1 : INCOME_KEYWORDS.any (fun k => isSubstrOf k (jsToLowerCase d))
      · rw [if_pos h1] at hcon
        exact absurd hcon (by decide)
      · rw [if_neg h1] at hcon
        by_cases h2 : INVESTMENT_KEYWORDS.any
            (fun k => isSubstrOf k (jsToLowerCase d))
        · rw [if_pos h2] at hcon
          exact absurd hcon (by decide)
        · rw [if_neg h2] at hcon
          by_cases h3 : 0 < a
          · rw [if_pos h3] at hcon
            exact absurd hcon (by decide)
          · rw [if_neg h3] at hcon
            exact absurd hcon (by decide)
    · intro _
      rfl

/-- Witness for C7: a transfer-looking description on a credit-card
account is not classified as a transfer, and on a bank account it is. -/
theorem C7_classify_transfer_gated_on_bank_witness :
    (classifyTransaction (str "TRANSFER TO UOB CARD") (-200)
        (some AccountType.credit) ≠ TransactionType.transfer) ∧
    (classifyTransaction (str "TRANSFER TO UOB CARD") (-200)
        (some AccountType.bank) = TransactionType.transfer) := by
  constructor
  · intro hcon
    have h := (C7_classify_transfer_gated_on_bank (str "TRANSFER TO UOB CARD")
        (-200) (some AccountType.credit)).1 hcon
    exact absurd h.1 (by decide)
  · decide

/-! ## Generic CSV parser (`src/utils/csvParser.ts`) -/

/-- ASCII digit test (`\d`). -/
def isDigitChar (c : Char) : Bool := 48 ≤ c.toNat && c.toNat ≤ 57

/-- Word-character test (`\w` = `[A-Za-z0-9_]`). -/
def isWordChar (c : Char) : Bool :=
  isDigitChar c || (65 ≤ c.toNat && c.toNat ≤ 90) ||
  (97 ≤ c.toNat && c.toNat ≤ 122) || c = '_'

/-- Maximal leading digit run and the remainder. -/
def spanDigits (s : Str) : Str × Str := (s.takeWhile isDigitChar, s.dropWhile isDigitChar)

/-- Maximal leading whitespace run and the remainder. -/
def spanWs (s : Str) : Str × Str := (s.takeWhile isJsWs, s.dropWhile isJsWs)

/-- Maximal leading word-character run and the remainder. -/
def spanWord (s : Str) : Str × Str := (s.takeWhile isWordChar, s.dropWhile isWordChar)

/-- JS `String.prototype.split('\n')`. -/
def splitNl : Str → List Str
  | [] => [[]]
  | c :: cs =>
    match splitNl cs with
    | [] => [[]]
    | h :: t => if c = '\n' then [] :: h :: t else (c :: h) :: t

/-- The character-by-character quoted-field splitter `parseCSVLine`
(state: current field, inside-quotes flag); each pushed field is trimmed. -/
def parseCSVLineGo (cur : Str) (inQ : Bool) : Str → List Str
  | [] => [jsTrim cur]
  | c :: cs =>
    if c = '"' then parseCSVLineGo cur (!inQ) cs
    else if c = ',' && !inQ then jsTrim cur :: parseCSVLineGo [] false cs
    else parseCSVLineGo (cur ++ [c]) inQ cs

/-- `parseCSVLine` from `src/utils/csvParser.ts`. -/
def parseCSVLine (line : Str) : List Str := parseCSVLineGo [] false line

/-- `findColumnIndex`: first header whose lowercased trimmed text contains
one of the patterns; `none` models the `-1` sentinel. -/
def findColumnIndexGo (patterns : List Str) : Nat → List Str → Option Nat
  | _, [] => none
  | i, h :: hs =>
    if patterns.any (fun p => isSubstrOf p (jsTrim (jsToLowerCase h))) then some i
    else findColumnIndexGo patterns (i + 1) hs

/-- `findColumnIndex` from `src/utils/csvParser.ts`. -/
def findColumnIndex (headers : List Str) (patterns : List Str) : Option Nat :=
  findColumnIndexGo patterns 0 headers

/-- The detected column positions (`detectColumns` result). -/
structure ColumnMap where
  date : Option Nat
  description : Option Nat
  amount : Option Nat
  balance : Option Nat
deriving DecidableEq, Repr

/-- `detectColumns` from `src/utils/csvParser.ts`, with its synonym lists. -/
def detectColumns (headers : List Str) : ColumnMap :=
  { date := findColumnIndex headers
      [str "date", str "transaction date", str "posting date", str "value date"],
    description := findColumnIndex headers
      [str "description", str "particulars", str "details",
       str "transaction description", str "narrative"],
    amount := findColumnIndex headers
      [str "amount", str "transaction amount", str "debit", str "credit",
       str "withdrawal", str "deposit"],
    balance := findColumnIndex headers
      [str "balance", str "running balance", str "available balance"] }

/-- Strip every apostrophe and double quote (`.replace(/['"]/g, '')`). -/
def stripQuotes (s : Str) : Str := s.filter (fun c => !(c = '\'' || c = '"'))

/-- Regex `^(\d{1,2})[\/\-](\d{1,2})[\/\-](\d{4})$` (day, month, year). -/
def matchFmt1 (s : Str) : Option (Str × Str × Str) :=
  let (d1, r1) := spanDigits s
  if 1 ≤ d1.length ∧ d1.length ≤ 2 then
    match r1 with
    | sep :: r2 =>
      if sep = '/' ∨ sep = '-' then
        let (d2, r3) := spanDigits r2
        if 1 ≤ d2.length ∧ d2.length ≤ 2 then
          match r3 with
          | sep2 :: r4 =>
            if sep2 = '/' ∨ sep2 = '-' then
              let (d3, r5) := spanDigits r4
              if d3.length = 4 ∧ r5 = [] then some (d1, d2, d3) else none
            else none
          | [] => none
        else none
      else none
    | [] => none
  else none

/-- Regex `^(\d{4})-(\d{2})-(\d{2})$` (already canonical). -/
def matchFmt2 (s : Str) : Bool :=
  let (y, r1) := spanDigits s
  y.length = 4 &&
    (match r1 with
     | '-' :: r2 =>
       let (m, r3) := spanDigits r2
       m.length = 2 &&
         (match r3 with
          | '-' :: r4 =>
            let (d, r5) := spanDigits r4
            d.length = 2 && r5.isEmpty
          | _ => false)
     | _ => false)

/-- Regex `^(\d{1,2})\s+(\w{3})\s+(\d{4})$` (day, month word, year). -/
def matchFmt3 (s : Str) : Option (Str × Str × Str) :=
  let (d, r1) := spanDigits s
  if 1 ≤ d.length ∧ d.length ≤ 2 then
    let (w1, r2) := spanWs r1
    if w1 ≠ [] then
      let (mon, r3) := spanWord r2
      if mon.length = 3 then
        let (w2, r4) := spanWs r3
        if w2 ≠ [] then
          let (y, r5) := spanDigits r4
          if y.length = 4 ∧ r5 = [] then some (d, mon, y) else none
        else none
      else none
    else none
  else none

/-- `monthNameToNumber` from `src/utils/csvParser.ts`. -/
def monthNameToNumber (name : Str) : Option Str :=
  let key := jsToLowerCase (name.take 3)
  List.lookup key
    [(str "jan", str "01"), (str "feb", str "02"), (str "mar", str "03"),
     (str "apr", str "04"), (str "may", str "05"), (str "jun", str "06"),
     (str "jul", str "07"), (str "aug", str "08"), (str "sep", str "09"),
     (str "oct", str "10"), (str "nov", str "11"), (str "dec", str "12")]

/-- `parseDate` from `src/utils/csvParser.ts`.  The final `new Date(...)`
fallback is host-dependent (ECMAScript leaves non-ISO date parsing to the
implementation), so it is taken as an explicit parameter `fb`
(`none` = Invalid Date = `null`); every theorem below quantifies over it
or never reaches it. -/
def parseDate (fb : Str → Option Str) (dateStr : Str) : Option Str :=
  if dateStr = [] then none
  else
    let cleaned := stripQuotes (jsTrim dateStr)
    match matchFmt1 cleaned with
    | some (d, m, y) =>
      some (y ++ str "-" ++ padStart2 m ++ str "-" ++ padStart2 d)
    | none =>
      if matchFmt2 cleaned then some cleaned
      else
        match matchFmt3 cleaned with
        | some (d, mon, y) =>
          match monthNameToNumber mon with
          | some mm => some (y ++ str "-" ++ mm ++ str "-" ++ padStart2 d)
          | none => fb cleaned
        | none => fb cleaned

/-- Characters kept by `parseAmount`'s first `.replace`. -/
def parseAmountKeep (c : Char) : Bool :=
  isDigitChar c || c = '.' || c = ',' || c = '-' || c = '(' || c = ')'

/-- Accumulate decimal digits into a natural number. -/
def digitsToNat (ds : Str) : Nat := ds.foldl (fun a c => 10 * a + (c.toNat - 48)) 0

/-- Fraction digits after a leading `.`, if any. -/
def fracDigits (r : Str) : Str :=
  match r with
  | '.' :: rest => (spanDigits rest).1
  | _ => []

/-- The unsigned part of JS `parseFloat`: integer digits, optional `.`
and fraction digits; trailing junk ignored; `none` = `NaN`.  The exact
rational value is used in place of the nearest IEEE double. -/
def parseFloatMag (t : Str) : Option ℚ :=
  let (ip, r1) := spanDigits t
  let fp := fracDigits r1
  if ip = [] ∧ fp = [] then none
  else some (mkRat (digitsToNat (ip ++ fp) : ℤ) (10 ^ fp.length))

/-- JS `parseFloat`: skip leading whitespace, optional sign, then the
unsigned part. -/
def parseFloatQ (s0 : Str) : Option ℚ :=
  match s0.dropWhile isJsWs with
  | c :: rest =>
    if c = '-' then (parseFloatMag rest).map (fun v => -v)
    else if c = '+' then parseFloatMag rest
    else parseFloatMag (c :: rest)
  | [] => parseFloatMag []

/-- `parseAmount` from `src/utils/csvParser.ts`: keep `[0-9.,\-()]`,
drop commas, map `(x)` to `-x`, then `parseFloat`. -/
def parseAmount (amountStr : Str) : Option ℚ :=
  if amountStr = [] then none
  else
    let cleaned := (amountStr.filter parseAmountKeep).filter (fun c => !(c = ','))
    let cleaned2 :=
      if cleaned.head? = some '(' ∧ cleaned.getLast? = some ')' then
        '-' :: (cleaned.drop 1).dropLast
      else cleaned
    parseFloatQ cleaned2

/-- One parsed CSV row (`ParsedRow`).  `balance`'s outer `Option` records
whether a balance column exists, the inner one whether its cell parsed
(`none` = `NaN`). -/
structure ParsedRow where
  date : Str
  description : Str
  amount : ℚ
  balance : Option (Option ℚ)
deriving DecidableEq, Repr

/-- `CSVParseResult`. -/
structure CSVParseResult where
  rows : List ParsedRow
  errors : List Str
deriving DecidableEq, Repr

/-- The body of `parseCSV`'s per-row `try` block: field extraction and the
`date && description && !isNaN(amount)` validation (`none` = the row is
reported as an error).  Nothing inside the `try` can actually throw, so
the `catch` arm is unreachable. -/
def parseCSVDataLine (fb : Str → Option Str) (cm : ColumnMap) (line : Str) :
    Option ParsedRow :=
  let columns := parseCSVLine line
  let date : Option Str :=
    match cm.date with
    | some i =>
      match columns.get? i with
      | some ds => parseDate fb ds
      | none => none
    | none => none
  let description : Str :=
    match cm.description with
    | some i => jsTrim ((columns.get? i).getD [])
    | none => []
  let amount : Option ℚ :=
    match cm.amount with
    | some i => parseAmount ((columns.get? i).getD [])
    | none => none
  let balance : Option (Option ℚ) :=
    match cm.balance with
    | some i => some (parseAmount ((columns.get? i).getD []))
    | none => none
  match date, amount with
  | some d, some a =>
    if d ≠ [] ∧ description ≠ [] then some ⟨d, description, a, balance⟩ else none
  | _, _ => none

/-- The data-row loop of `parseCSV` (`i` is the 0-based line index used in
the `Row ${i + 1}` error messages). -/
def parseCSVRowsGo (fb : Str → Option Str) (cm : ColumnMap) :
    Nat → List Str → List ParsedRow × List Str
  | _, [] => ([], [])
  | i, l :: ls =>
    let line := jsTrim l
    let rest := parseCSVRowsGo fb cm (i + 1) ls
    if line = [] then rest
    else
      match parseCSVDataLine fb cm line with
      | some r => (r :: rest.1, rest.2)
      | none =>
        (rest.1,
         (str "Row " ++ natDigits (i + 1) ++ str ": Could not parse data") :: rest.2)

/-- `parseCSV` from `src/utils/csvParser.ts`. -/
def parseCSV (fb : Str → Option Str) (content : Str) : CSVParseResult :=
  let lines := splitNl (jsTrim content)
  if lines.length < 2 then
    ⟨[], [str "CSV file is empty or has no data rows"]⟩
  else
    let headerLine := jsToLowerCase (lines.headD [])
    let headers := parseCSVLine headerLine
    let cm := detectColumns headers
    match cm.date, cm.description, cm.amount with
    | some _, some _, some _ =>
      let rs := parseCSVRowsGo fb cm 1 (lines.drop 1)
      ⟨rs.1, rs.2⟩
    | _, _, _ =>
      ⟨[], [str "Could not detect required columns (date, description, amount)"]⟩

/-! ## CSV import with fingerprint deduplication
(`src/services/ingestionService.ts`) -/

/-- `Account` from `src/models`. -/
structure Account where
  id : Str
  ownerId : Str
  institution : Str
  name : Str
  type : AccountType
deriving DecidableEq, Repr

/-- `ImportResult`. -/
structure ImportResult where
  transactions : List Transaction
  duplicates : Nat
  errors : List Str

/-- The dedup/classify loop of `importCSV`.  The mutable `Set` of hashes is
threaded explicitly (membership list); returns the new transactions, the
duplicate count, and the updated set. -/
def importGo (ownerId : Str) (account : Account) :
    List ParsedRow → List Str → List Transaction × Nat × List Str
  | [], hashes => ([], 0, hashes)
  | row :: rows, hashes =>
    let hash := generateTransactionHash row.date row.description row.amount
    if hashes.contains hash then
      let rest := importGo ownerId account rows hashes
      (rest.1, rest.2.1 + 1, rest.2.2)
    else
      let tx := processTransaction (account.id ++ str "-" ++ hash) row.date
        row.description row.amount ownerId account.id (some account.type)
      let rest := importGo ownerId account rows (hashes ++ [hash])
      (tx :: rest.1, rest.2.1, rest.2.2)

/-- `importCSV` from `src/services/ingestionService.ts` (the file read is
replaced by its resulting `content`); also returns the updated hash set. -/
def importCSV (fb : Str → Option Str) (content : Str) (ownerId : Str)
    (account : Account) (existingHashes : List Str) : ImportResult × List Str :=
  let res := parseCSV fb content
  let r := importGo ownerId account res.rows existingHashes
  (⟨r.1, r.2.1, res.errors⟩, r.2.2)

theorem importGo_hashes_mono (ownerId : Str) (account : Account)
    (rows : List ParsedRow) (hashes : List Str) :
    ∀ h ∈ hashes, h ∈ (importGo ownerId account rows hashes).2.2 := by
  induction rows generalizing hashes with
  | nil => intro h hh; exact hh
  | cons row rows ih =>
    intro h hh
    unfold importGo
    by_cases hc : hashes.contains
        (generateTransactionHash row.date row.description row.amount)
    · simp only [hc, if_true]
      exact ih hashes h hh
    · simp only [hc, if_false]
      exact ih _ h (List.mem_append_left _ hh)

theorem importGo_row_hash_in_final (ownerId : Str) (account : Account)
    (rows : List ParsedRow) (hashes : List Str) :
    ∀ row ∈ rows,
      generateTransactionHash row.date row.description row.amount
        ∈ (importGo ownerId account rows hashes).2.2 := by
  induction rows generalizing hashes with
  | nil => intro row hr; exact absurd hr (List.not_mem_nil row)
  | cons row0 rows ih =>
    intro row hr
    unfold importGo
    rcases List.mem_cons.mp hr with he | ht
    · subst he
      by_cases hc : hashes.contains
          (generateTransactionHash row.date row.description row.amount)
      · simp only [hc, if_true]
        exact importGo_hashes_mono ownerId account rows hashes _
          (by simpa using hc)
      · simp only [hc, if_false]
        exact importGo_hashes_mono ownerId account rows _ _
          (List.mem_append_right _ (List.mem_singleton.mpr rfl))
    · by_cases hc : hashes.contains
          (generateTransactionHash row0.date row0.description row0.amount)
      · simp only [hc, if_true]
        exact ih hashes row ht
      · simp only [hc, if_false]
        exact ih _ row ht

theorem importGo_all_duplicates (ownerId : Str) (account : Account)
    (rows : List ParsedRow) (hashes : List Str)
    (hall : ∀ row ∈ rows,
        generateTransactionHash row.date row.description row.amount ∈ hashes) :
    importGo ownerId account rows hashes = ([], rows.length, hashes) := by
  induction rows with
  | nil => rfl
  | cons row rows ih =>
    unfold importGo
    have hc : hashes.contains
        (generateTransactionHash row.date row.description row.amount) = true := by
      simpa using hall row (List.mem_cons_self row rows)
    simp only [hc, if_true]
    rw [ih (fun r hr => hall r (List.mem_cons_of_mem row hr))]
    simp [List.length_cons]

theorem importGo_count (ownerId : Str) (account : Account)
    (rows : List ParsedRow) (hashes : List Str) :
    (importGo ownerId account rows hashes).1.length
      + (importGo ownerId account rows hashes).2.1 = rows.length := by
  induction rows generalizing hashes with
  | nil => rfl
  | cons row rows ih =>
    unfold importGo
    cases hc : hashes.contains
        (generateTransactionHash row.date row.description row.amount)
    · rw [if_neg (by rw [hc]; decide)]
      have := ih (hashes ++ [generateTransactionHash row.date row.description row.amount])
      simp only [List.length_cons]
      omega
    · rw [if_pos hc]
      have := ih hashes
      simp only [List.length_cons]
      omega

/-- **C2 (amended).** Importing the same CSV content twice against the same
hash set yields zero new transactions on the second run, and a
second-run duplicate count equal to the total number of parsed rows —
that is, the first run's transaction count *plus* the first run's
duplicate count.  (It equals the first run's transaction count alone only
when the first run itself encountered no duplicates; see the
counterexample.) -/
theorem C2_reimport_idempotent
    (fb : Str → Option Str) (content : Str) (ownerId : Str) (account : Account)
    (hashes : List Str) :
    (importCSV fb content ownerId account
        ((importCSV fb content ownerId account hashes).2)).1.transactions = [] ∧
    (importCSV fb content ownerId account
        ((importCSV fb content ownerId account hashes).2)).1.duplicates
      = (importCSV fb content ownerId account hashes).1.transactions.length
        + (importCSV fb content ownerId account hashes).1.duplicates := by
  set rows := (parseCSV fb content).rows with hrows
  have hall : ∀ row ∈ rows,
      generateTransactionHash row.date row.description row.amount
        ∈ (importGo ownerId account rows hashes).2.2 :=
    importGo_row_hash_in_final ownerId account rows hashes
  have hsecond := importGo_all_duplicates ownerId account rows
      ((importGo ownerId account rows hashes).2.2) hall
  constructor
  · show (importGo ownerId account rows
        ((importGo ownerId account rows hashes).2.2)).1 = []
    rw [hsecond]
  · show (importGo ownerId account rows
        ((importGo ownerId account rows hashes).2.2)).2.1
      = (importGo ownerId account rows hashes).1.length
        + (importGo ownerId account rows hashes).2.1
    rw [hsecond]
    exact (importGo_count ownerId account rows hashes).symm

/-- Host-date fallback that parses nothing (Invalid Date on every input);
the inputs below never reach the fallback anyway. -/
def fbNone : Str → Option Str := fun _ => none

/-- A CSV file whose two data rows are identical. -/
def csvDupContent : Str :=
  str "date,description,amount\n01/02/2026,Refund,50.00\n01/02/2026,Refund,50.00"

/-- A demonstration bank account. -/
def acctDemo : Account :=
  ⟨str "acc1", str "o", str "UOB", str "UOB One (with FX+)", AccountType.bank⟩

/-- **C2 counterexample.** For a CSV file containing the same row twice and
an empty hash set, the first run returns 1 transaction (and 1 duplicate),
but the second run counts 2 duplicates — not 1 as the claim states. -/
theorem C2_reimport_counterexample :
    (importCSV fbNone csvDupContent (str "o") acctDemo
        ((importCSV fbNone csvDupContent (str "o") acctDemo []).2)).1.duplicates = 2 ∧
    (importCSV fbNone csvDupContent (str "o") acctDemo []).1.transactions.length = 1 ∧
    (2 : Nat) ≠ 1 := by
  refine ⟨by decide, by decide, by decide⟩

theorem parseCSVRowsGo_rows (fb : Str → Option Str) (cm : ColumnMap) :
    ∀ (i : Nat) (ls : List Str),
      (parseCSVRowsGo fb cm i ls).1
        = ls.filterMap (fun l =>
            if jsTrim l = [] then none else parseCSVDataLine fb cm (jsTrim l)) := by
  intro i ls
  induction ls generalizing i with
  | nil => rfl
  | cons l ls ih =>
    unfold parseCSVRowsGo
    simp only [List.filterMap_cons]
    by_cases he : jsTrim l = []
    · rw [if_pos he, if_pos he]
      exact ih (i + 1)
    · rw [if_neg he, if_neg he]
      cases hdl : parseCSVDataLine fb cm (jsTrim l) with
      | none => simpa using ih (i + 1)
      | some r => simpa using ih (i + 1)

theorem parseCSVRowsGo_count (fb : Str → Option Str) (cm : ColumnMap) :
    ∀ (i : Nat) (ls : List Str),
      (parseCSVRowsGo fb cm i ls).1.length + (parseCSVRowsGo fb cm i ls).2.length
        = ls.countP (fun l => !(jsTrim l).isEmpty) := by
  intro i ls
  have hione : (if ((true : Bool) = true) then (1 : Nat) else 0) = 1 := if_pos rfl
  have hizero : (if ((false : Bool) = true) then (1 : Nat) else 0) = 0 :=
    if_neg (by decide)
  induction ls generalizing i with
  | nil => rfl
  | cons l ls ih =>
    unfold parseCSVRowsGo
    rw [List.countP_cons]
    by_cases he : jsTrim l = []
    · rw [if_pos he]
      have h0 : (!(jsTrim l).isEmpty) = false := by simp [he]
      rw [h0, hizero]
      have hx := ih (i + 1)
      omega
    · rw [if_neg he]
      have h1 : (!(jsTrim l).isEmpty) = true := by
        simp [List.isEmpty_iff]
        exact he
      rw [h1, hione]
      have hx := ih (i + 1)
      cases hdl : parseCSVDataLine fb cm (jsTrim l) with
      | none =>
        simp only [List.length_cons]
        omega
      | some r =>
        simp only [List.length_cons]
        omega

/-- **C8.** When the required columns are detected and the file has a data
section, `parseCSV` processes every data line independently: the returned
rows are exactly the per-line parses of the non-empty lines (a failing
line does not disturb the lines after it), and rows and errors together
account for every non-empty data line exactly once. -/
theorem C8_per_row_errors_not_fatal
    (fb : Str → Option Str) (content : Str) (cm : ColumnMap) (di de da : Nat)
    (hcm : detectColumns (parseCSVLine (jsToLowerCase
        ((splitNl (jsTrim content)).headD []))) = cm)
    (hd : cm.date = some di) (he : cm.description = some de)
    (ha : cm.amount = some da)
    (h2 : 2 ≤ (splitNl (jsTrim content)).length) :
    (parseCSV fb content).rows
      = ((splitNl (jsTrim content)).drop 1).filterMap (fun l =>
          if jsTrim l = [] then none else parseCSVDataLine fb cm (jsTrim l)) ∧
    (parseCSV fb content).rows.length + (parseCSV fb content).errors.length
      = ((splitNl (jsTrim content)).drop 1).countP
          (fun l => !(jsTrim l).isEmpty) := by
  subst hcm
  have hres : parseCSV fb content
      = ⟨(parseCSVRowsGo fb
            (detectColumns (parseCSVLine (jsToLowerCase
              ((splitNl (jsTrim content)).headD [])))) 1
            ((splitNl (jsTrim content)).drop 1)).1,
         (parseCSVRowsGo fb
            (detectColumns (parseCSVLine (jsToLowerCase
              ((splitNl (jsTrim content)).headD [])))) 1
            ((splitNl (jsTrim content)).drop 1)).2⟩ := by
    simp only [parseCSV]
    rw [if_neg (by omega), hd, he, ha]
  rw [hres]
  exact ⟨parseCSVRowsGo_rows fb _ 1 _, parseCSVRowsGo_count fb _ 1 _⟩

/-- A CSV file with one malformed data line followed by one good line. -/
def csvMixedContent : Str :=
  str "date,description,amount\nbadrow\n01/02/2026,Refund,50.00"

/-- Witness for C8: on a file whose first data line is malformed, the good
line after it still parses — one row and one error, accounting for both
non-empty data lines. -/
theorem C8_per_row_errors_not_fatal_witness :
    ((parseCSV fbNone csvMixedContent).rows.length
        + (parseCSV fbNone csvMixedContent).errors.length
      = ((splitNl (jsTrim csvMixedContent)).drop 1).countP
          (fun l => !(jsTrim l).isEmpty)) ∧
    (parseCSV fbNone csvMixedContent).rows.length = 1 ∧
    (parseCSV fbNone csvMixedContent).errors.length = 1 :=
  ⟨(C8_per_row_errors_not_fatal fbNone csvMixedContent
      ⟨some 0, some 1, some 2, none⟩ 0 1 2 (by decide) rfl rfl rfl (by decide)).2,
   by decide, by decide⟩

theorem takeWhile_ne_nil_head {p : Char → Bool} {r : Str}
    (h : r.takeWhile p ≠ []) : ∃ c cs, r = c :: cs ∧ p c = true := by
  cases r with
  | nil => exact absurd rfl h
  | cons c cs =>
    refine ⟨c, cs, rfl, ?_⟩
    by_contra hpc
    have hf : p c = false := by
      cases hv : p c
      · rfl
      · exact absurd hv hpc
    rw [List.takeWhile_cons, hf] at h
    exact absurd rfl h

theorem matchFmt3_imp_matchFmt1_none {s : Str} {x : Str × Str × Str}
    (h : matchFmt3 s = some x) : matchFmt1 s = none := by
  unfold matchFmt3 at h
  unfold matchFmt1
  rcases hsp : spanDigits s with ⟨ds, r⟩
  simp only [hsp] at h ⊢
  by_cases hlen : 1 ≤ ds.length ∧ ds.length ≤ 2
  · rw [if_pos hlen] at h ⊢
    rcases hws : spanWs r with ⟨w1, r2⟩
    simp only [hws] at h
    by_cases hw : w1 = []
    · rw [if_neg (fun hne => hne hw)] at h
      exact absurd h (by simp)
    · have htake : r.takeWhile isJsWs = w1 := congrArg Prod.fst hws
      obtain ⟨c, cs, hr, hpc⟩ := takeWhile_ne_nil_head (htake ▸ hw)
      simp only [hr]
      have hslash : ¬ (c = '/' ∨ c = '-') := by
        intro hor
        rcases hor with h1 | h1 <;> (subst h1; exact absurd hpc (by decide))
      rw [if_neg hslash]
  · rw [if_neg hlen]

theorem matchFmt3_imp_matchFmt2_false {s : Str} {x : Str × Str × Str}
    (h : matchFmt3 s = some x) : matchFmt2 s = false := by
  unfold matchFmt3 at h
  unfold matchFmt2
  rcases hsp : spanDigits s with ⟨ds, r⟩
  simp only [hsp] at h ⊢
  by_cases hlen : 1 ≤ ds.length ∧ ds.length ≤ 2
  · have h4 : decide (ds.length = 4) = false := by
      simp only [decide_eq_false_iff_not]
      omega
    rw [h4, Bool.false_and]
  · rw [if_neg hlen] at h
    exact absurd h (by simp)

theorem matchFmt2_imp_matchFmt1_none {s : Str}
    (h : matchFmt2 s = true) : matchFmt1 s = none := by
  unfold matchFmt2 at h
  unfold matchFmt1
  rcases hsp : spanDigits s with ⟨ds, r⟩
  simp only [hsp] at h ⊢
  rw [Bool.and_eq_true] at h
  have h4 : ds.length = 4 := by
    have := h.1
    simpa using this
  rw [if_neg (by omega)]

theorem matchFmt1_nil_none : matchFmt1 ([] : Str) = none := by decide

theorem matchFmt2_nil_false : matchFmt2 ([] : Str) = false := by decide

theorem matchFmt3_nil_none : matchFmt3 ([] : Str) = none := by decide

theorem jsTrim_nil : jsTrim ([] : Str) = [] := rfl

/-- Month lengths of the Gregorian calendar. -/
def daysInMonth (y m : Nat) : Nat :=
  if m = 2 then (if (y % 4 = 0 ∧ y % 100 ≠ 0) ∨ y % 400 = 0 then 29 else 28)
  else if m = 1 ∨ m = 3 ∨ m = 5 ∨ m = 7 ∨ m = 8 ∨ m = 10 ∨ m = 12 then 31
  else if m = 4 ∨ m = 6 ∨ m = 9 ∨ m = 11 then 30
  else 0

/-- Modelled from the spec: "a canonical `YYYY-MM-DD` string denoting a
valid calendar date" — the string has shape `YYYY-MM-DD` and its
components name an existing Gregorian date.  This is the spec-side
predicate; the source performs no such validation. -/
def isValidCalendarDate (s : Str) : Bool :=
  let (y, r1) := spanDigits s
  y.length = 4 &&
    (match r1 with
     | '-' :: r2 =>
       let (m, r3) := spanDigits r2
       m.length = 2 &&
         (match r3 with
          | '-' :: r4 =>
            let (d, r5) := spanDigits r4
            d.length = 2 && r5.isEmpty &&
              (1 ≤ digitsToNat m && digitsToNat m ≤ 12 &&
               1 ≤ digitsToNat d &&
               digitsToNat d ≤ daysInMonth (digitsToNat y) (digitsToNat m))
          | _ => false)
     | _ => false)

/-- **C9 (amended).** Every supported CSV date form is mapped by
`parseDate` to the canonical `YYYY-MM-DD` rearrangement of its
components — transcribed without calendar validation (see the
counterexample: `31/02/2026` becomes `2026-02-31`) — and a data line
whose date cell fails to parse contributes exactly one per-row error
while the rest of the batch is processed unchanged. -/
theorem C9_date_normalization
    (fb : Str → Option Str) (s : Str) :
    (∀ d m y, matchFmt1 (stripQuotes (jsTrim s)) = some (d, m, y) →
      parseDate fb s
        = some (y ++ str "-" ++ padStart2 m ++ str "-" ++ padStart2 d)) ∧
    (matchFmt2 (stripQuotes (jsTrim s)) = true →
      parseDate fb s = some (stripQuotes (jsTrim s))) ∧
    (∀ d mon y mm, matchFmt3 (stripQuotes (jsTrim s)) = some (d, mon, y) →
      monthNameToNumber mon = some mm →
      parseDate fb s = some (y ++ str "-" ++ mm ++ str "-" ++ padStart2 d)) ∧
    (∀ (cm : ColumnMap) (di : Nat) (i : Nat) (ls : List Str),
      jsTrim s ≠ [] → cm.date = some di →
      (match (parseCSVLine (jsTrim s)).get? di with
       | some ds => parseDate fb ds
       | none => none) = none →
      parseCSVRowsGo fb cm i (s :: ls)
        = ((parseCSVRowsGo fb cm (i + 1) ls).1,
           (str "Row " ++ natDigits (i + 1) ++ str ": Could not parse data")
             :: (parseCSVRowsGo fb cm (i + 1) ls).2)) := by
  refine ⟨?_, ?_, ?_, ?_⟩
  · intro d m y h
    have hne : s ≠ [] := by
      intro hs
      subst hs
      rw [show stripQuotes (jsTrim ([] : Str)) = [] from rfl,
        matchFmt1_nil_none] at h
      exact absurd h (by simp)
    simp only [parseDate]
    rw [if_neg hne, h]
  · intro h2
    have hne : s ≠ [] := by
      intro hs
      subst hs
      rw [show stripQuotes (jsTrim ([] : Str)) = [] from rfl,
        matchFmt2_nil_false] at h2
      exact absurd h2 (by simp)
    simp only [parseDate]
    rw [if_neg hne, matchFmt2_imp_matchFmt1_none h2]
    simp only [h2, if_pos]
  · intro d mon y mm h3 hmm
    have hne : s ≠ [] := by
      intro hs
      subst hs
      rw [show stripQuotes (jsTrim ([] : Str)) = [] from rfl,
        matchFmt3_nil_none] at h3
      exact absurd h3 (by simp)
    simp only [parseDate]
    rw [if_neg hne, matchFmt3_imp_matchFmt1_none h3]
    simp only [matchFmt3_imp_matchFmt2_false h3, Bool.false_eq_true, if_false,
      h3, hmm]
  · intro cm di i ls hne hdi hdnone
    have hfail : parseCSVDataLine fb cm (jsTrim s) = none := by
      simp only [parseCSVDataLine, hdi, hdnone]
    simp only [parseCSVRowsGo]
    rw [if_neg hne, hfail]

/-- Witness for C9: one concrete date of each supported form passes through
`parseDate` into the canonical form via the amended theorem. -/
theorem C9_date_normalization_witness :
    (parseDate fbNone (str "05/01/2026")
      = some (str "2026" ++ str "-" ++ padStart2 (str "01")
          ++ str "-" ++ padStart2 (str "05"))) ∧
    (parseDate fbNone (str "2026-01-05")
      = some (stripQuotes (jsTrim (str "2026-01-05")))) ∧
    (parseDate fbNone (str "5 Jan 2026")
      = some (str "2026" ++ str "-" ++ str "01" ++ str "-" ++ padStart2 (str "5"))) :=
  ⟨(C9_date_normalization fbNone (str "05/01/2026")).1
      (str "05") (str "01") (str "2026") (by decide),
   (C9_date_normalization fbNone (str "2026-01-05")).2.1 (by decide),
   (C9_date_normalization fbNone (str "5 Jan 2026")).2.2.1
      (str "5") (str "Jan") (str "2026") (str "01") (by decide) (by decide)⟩

/-- **C9 counterexample.** `31/02/2026` is in the supported `DD/MM/YYYY`
form, and `parseDate` maps it to `2026-02-31` — which does not denote a
valid calendar date (there is no 31 February): the claimed calendar
validity fails. -/
theorem C9_date_validity_counterexample :
    parseDate fbNone (str "31/02/2026") = some (str "2026-02-31") ∧
    isValidCalendarDate (str "2026-02-31") = false := by
  refine ⟨by decide, by decide⟩

/-! ## UOB bank-statement parser, text-only path
(`src/services/parsers/uobOneParser.ts`) -/

/-- JS `String.prototype.indexOf` (first occurrence), `none` = `-1`. -/
def indexOfSubGo (needle : Str) : Nat → Str → Option Nat
  | i, [] => if needle.isEmpty then some i else none
  | i, c :: cs =>
    if needle.isPrefixOf (c :: cs) then some i else indexOfSubGo needle (i + 1) cs

/-- JS `text.indexOf(needle)`. -/
def indexOfSub (needle s : Str) : Option Nat := indexOfSubGo needle 0 s

/-- JS `String.prototype.substring` (clamps and swaps its arguments). -/
def jsSubstring (s : Str) (a b : Nat) : Str :=
  let lo := min (min a b) s.length
  let hi := min (max a b) s.length
  (s.take hi).drop lo

/-- JS `String.prototype.endsWith`. -/
def strEndsWith (suffix s : Str) : Bool := suffix.reverse.isPrefixOf s.reverse

/-- First-match regex search: try the pattern at each position left to
right (the JS unanchored `match`/`test` discipline). -/
def searchFirst {α : Type} (f : Str → Option α) : Str → Option α
  | [] => f []
  | c :: cs =>
    match f (c :: cs) with
    | some r => some r
    | none => searchFirst f cs

/-- Boolean variant of `searchFirst`. -/
def searchBool (f : Str → Bool) : Str → Bool
  | [] => f []
  | c :: cs => f (c :: cs) || searchBool f cs

/-- JS `split(/\s+/)` (state: `some cur` building a token, `none` skipping
a whitespace run). -/
def splitWsGo (mode : Option Str) : Str → List Str
  | [] =>
    match mode with
    | some cur => [cur]
    | none => [[]]
  | c :: cs =>
    match mode with
    | some cur =>
      if isJsWs c then cur :: splitWsGo none cs
      else splitWsGo (some (cur ++ [c])) cs
    | none =>
      if isJsWs c then splitWsGo none cs
      else splitWsGo (some [c]) cs

/-- JS `s.split(/\s+/)`. -/
def jsSplitWs (s : Str) : List Str := splitWsGo (some []) s

/-- One statement date `\d{2}\s+\w{3}\s+\d{4}`, returning the captured
text and the remainder.  When `exact4` the year group is followed by
`\s+` in the enclosing pattern, so a fifth digit kills the match;
otherwise the pattern ends with the year and only its first four digits
are captured. -/
def matchStmtDate (exact4 : Bool) (s : Str) : Option (Str × Str) :=
  let (d, r1) := spanDigits s
  if d.length = 2 then
    let (w1, r2) := spanWs r1
    if w1 ≠ [] then
      let (mon, r3) := spanWord r2
      if mon.length = 3 then
        let (w2, r4) := spanWs r3
        if w2 ≠ [] then
          let (y, r5) := spanDigits r4
          if (if exact4 then y.length = 4 else 4 ≤ y.length) then
            some (d ++ w1 ++ mon ++ w2 ++ y.take 4, y.drop 4 ++ r5)
          else none
        else none
      else none
    else none
  else none

/-- `Period:\s*(\d{2}\s+\w{3}\s+\d{4})\s+to\s+(\d{2}\s+\w{3}\s+\d{4})`
anchored at the current position, returning the two captured dates. -/
def matchPeriodAt (s : Str) : Option (Str × Str) :=
  if (str "Period:").isPrefixOf s then
    let r1 := (s.drop 7).dropWhile isJsWs
    match matchStmtDate true r1 with
    | some (g1, r2) =>
      let (w, r3) := spanWs r2
      if w ≠ [] ∧ (str "to").isPrefixOf r3 then
        let (w2, r5) := spanWs (r3.drop 2)
        if w2 ≠ [] then
          match matchStmtDate false r5 with
          | some (g2, _) => some (g1, g2)
          | none => none
        else none
      else none
    | none => none
  else none

/-- `One Account\s+([\d-]+)` anchored at the current position. -/
def matchAccountAt (s : Str) : Option Str :=
  if (str "One Account").isPrefixOf s then
    let (w, r2) := spanWs (s.drop 11)
    if w ≠ [] then
      let run := r2.takeWhile (fun c => isDigitChar c || c = '-')
      if run ≠ [] then some run else none
    else none
  else none

/-- The bank parser's month table (`parseUOBDate`/`formatDate`,
title-case keys only; a failed lookup renders as JS `undefined`). -/
def bankMonths : List (Str × Str) :=
  [(str "Jan", str "01"), (str "Feb", str "02"), (str "Mar", str "03"),
   (str "Apr", str "04"), (str "May", str "05"), (str "Jun", str "06"),
   (str "Jul", str "07"), (str "Aug", str "08"), (str "Sep", str "09"),
   (str "Oct", str "10"), (str "Nov", str "11"), (str "Dec", str "12")]

/-- `parseUOBDate` of the bank parser: `"01 Dec 2025"` to `"2025-12-01"`
(components transcribed; an unknown month renders as `undefined`). -/
def bankParseUOBDate (dateStr : Str) : Str :=
  let parts := jsSplitWs (jsTrim dateStr)
  let day := padStart2 (parts.getD 0 [])
  let month :=
    match parts.get? 1 with
    | some m => (bankMonths.lookup m).getD (str "undefined")
    | none => str "undefined"
  let year := (parts.get? 2).getD (str "undefined")
  year ++ str "-" ++ month ++ str "-" ++ day

/-- `formatDate` of the bank parser: `"01 Dec"` with a year number
(`none` models `NaN`, rendered as JS does). -/
def bankParseStatementDate (dateStr : Str) (year : Option ℤ) : Str :=
  let parts := jsSplitWs (jsTrim dateStr)
  let day := padStart2 (parts.getD 0 [])
  let month :=
    match parts.get? 1 with
    | some m => (bankMonths.lookup m).getD (str "undefined")
    | none => str "undefined"
  let yearStr := match year with | some y => intStr y | none => str "NaN"
  yearStr ++ str "-" ++ month ++ str "-" ++ day

/-- `new Date(iso).getFullYear()` on the `YYYY-MM-DD` strings this code
builds: the year for a valid ISO date, `none` (`NaN`) for an invalid
one.  (UTC parse read back in a non-negative-offset timezone, the
deployment context of this repository.) -/
def jsDateYear (s : Str) : Option ℤ :=
  let (y, r1) := spanDigits s
  if y.length = 4 then
    match r1 with
    | '-' :: r2 =>
      let (m, r3) := spanDigits r2
      if m.length = 2 ∧ 1 ≤ digitsToNat m ∧ digitsToNat m ≤ 12 then
        match r3 with
        | '-' :: r4 =>
          let (d, r5) := spanDigits r4
          if d.length = 2 ∧ r5 = [] ∧ 1 ≤ digitsToNat d ∧
              digitsToNat d ≤ daysInMonth (digitsToNat y) (digitsToNat m) then
            some (digitsToNat y : ℤ)
          else none
        | _ => none
      else none
    | _ => none
  else none

/-- The literal-substring entries of `isFooterLine`'s pattern list (those
without `\d`; matched against the lowercased line). -/
def bankFooterSubstrings : List Str :=
  [str "please note that you are bound", str "united overseas bank",
   str "uob plaza", str "co. reg. no", str "gst reg. no", str "www.uob.com",
   str "请注意", str "本行", str "户口", str "check the entries",
   str "notify us in writing", str "shall be deemed valid",
   str "conclusively binding", str "raffles place",
   str "claim against the bank", str "80 raffles", str "singapore 048624",
   str "omissions or unauthorised", str "errors, omissions",
   str "fourteen (14) days", str "entries above shall be",
   str "in relation thereto", str "duty under the rules",
   str "governing the operation", str "currency conversion",
   str "withdrawals deposits balance", str "date description", str "fx+",
   str "sgd/jpy", str "sgd/usd", str "sgd/eur", str "sgd/gbp", str "sgd/aud",
   str "sgd/nzd", str "sgd/hkd", str "sgd/cny", str "nzd nzd nzd",
   str "jpy jpy jpy", str "usd usd usd", str "eur eur eur"]

/-- `page \d+ of \d+` anchored at the current position. -/
def matchPageOfAt (s : Str) : Bool :=
  if (str "page ").isPrefixOf s then
    let (d1, r1) := spanDigits (s.drop 5)
    d1 ≠ [] && (str " of ").isPrefixOf r1 && (spanDigits (r1.drop 4)).1 ≠ []
  else false

/-- `total \d` anchored at the current position. -/
def matchTotalDAt (s : Str) : Bool :=
  (str "total ").isPrefixOf s &&
    (match s.drop 6 with
     | c :: _ => isDigitChar c
     | [] => false)

/-- Count of non-ASCII UTF-16 code units (`[^\x00-\x7F]` without `u`). -/
def nonAsciiCount (s : Str) : Nat := ((strUtf16 s).filter (fun n => 127 < n)).length

/-- JS `.length` (UTF-16 code units). -/
def jsLen (s : Str) : Nat := (strUtf16 s).length

/-- `isFooterLine` from the bank parser: fixed patterns (the two `\d`
entries handled as regexes) plus the >30%-non-ASCII/length>20 heuristic. -/
def isFooterLine (line : Str) : Bool :=
  let lowerLine := jsToLowerCase line
  bankFooterSubstrings.any (fun p => isSubstrOf p lowerLine) ||
  searchBool matchPageOfAt lowerLine || searchBool matchTotalDAt lowerLine ||
  (decide (3 * jsLen line < 10 * nonAsciiCount line) &&
   decide (20 < jsLen line))

/-- Character class `[\d,]`. -/
def isDigitComma (c : Char) : Bool := isDigitChar c || c = ','

/-- Full-token test `/^[\d,]+\.\d{2}$/`. -/
def isNumTok (p : Str) : Bool :=
  let run := p.takeWhile isDigitComma
  run ≠ [] &&
    (match p.dropWhile isDigitComma with
     | dot :: d1 :: d2 :: rest =>
       dot = '.' && isDigitChar d1 && isDigitChar d2 && rest.isEmpty
     | _ => false)

/-- `parseFloat(tok.replace(/,/g, ''))` on a matched numeric token
(`0` is unreachable for tokens the regexes produce). -/
def parseNumStr (p : Str) : ℚ :=
  (parseFloatQ (p.filter (fun c => !(c = ',')))).getD 0

/-- Search `/([\d,]+\.\d{2})\s*$/`: the end-anchored suffix forces the
match to sit at the end, so it is computed from the right — optional
whitespace, two digits, a dot, then a maximal nonempty `[\d,]` run.
Returns (text before the captured group, the captured group). -/
def lastAmountSplit (s : Str) : Option (Str × Str) :=
  match s.reverse.dropWhile isJsWs with
  | d2 :: d1 :: dot :: r2 =>
    if dot = '.' && isDigitChar d2 && isDigitChar d1 then
      let runR := r2.takeWhile isDigitComma
      if runR ≠ [] then
        some ((r2.dropWhile isDigitComma).reverse, runR.reverse ++ '.' :: [d1, d2])
      else none
    else none
  | _ => none

/-- Gate test `/([\d,]+\.\d{2})\s+([\d,]+\.\d{2})\s*$/`: two numeric
tokens separated by whitespace at the end of the line. -/
def endTwoNums (s : Str) : Bool :=
  match lastAmountSplit s with
  | some (before, _) =>
    (before.reverse.takeWhile isJsWs ≠ []) &&
      (match lastAmountSplit before with
       | some _ => true
       | none => false)
  | none => false

/-- Transaction-start match `/^(\d{2}\s+\w{3})\s+(.+)/`: the captured
date token (with its inner whitespace) and the rest of the line.  Lines
here come from a `'\n'` split and are trimmed, so `.+` spans the
remaining non-terminator run. -/
def bankDateMatch (s : Str) : Option (Str × Str) :=
  let (d, r1) := spanDigits s
  if d.length = 2 then
    let (w1, r2) := spanWs r1
    if w1 ≠ [] then
      let (mon, r3) := spanWord r2
      if mon.length = 3 then
        let (w2, r4) := spanWs r3
        if w2 ≠ [] then
          let rest := r4.takeWhile isDotChar
          if rest ≠ [] then some (d ++ w1 ++ mon, rest) else none
        else none
      else none
    else none
  else none

/-- Continuation stop test `/^\d{2}\s+\w{3}\s+/`. -/
def contStopDate (s : Str) : Bool :=
  let (d, r1) := spanDigits s
  d.length = 2 &&
    (let (w1, r2) := spanWs r1
     w1 ≠ [] &&
       (let (mon, r3) := spanWord r2
        mon.length = 3 && (spanWs r3).1 ≠ []))

/-- `Balance\s+SGD\s*\n\s*([\d,]+\.\d{2})` anchored at the current
position (the whitespace run between `SGD` and the number must contain a
newline). -/
def matchClosingAt (s : Str) : Option ℚ :=
  if (str "Balance").isPrefixOf s then
    let (w1, r1) := spanWs (s.drop 7)
    if w1 ≠ [] then
      if (str "SGD").isPrefixOf r1 then
        let (w2, r3) := spanWs (r1.drop 3)
        if w2.contains '\n' then
          let run := r3.takeWhile (fun c => isDigitChar c || c = ',')
          if run ≠ [] then
            match r3.drop run.length with
            | '.' :: a :: b :: _ =>
              if isDigitChar a && isDigitChar b then
                some (parseNumStr (run ++ '.' :: [a, b]))
              else none
            | _ => none
          else none
        else none
      else none
    else none
  else none

/-- One raw statement transaction tuple. -/
structure RawTx where
  date : Str
  description : Str
  amount : ℚ
  balance : ℚ
  tag : Option Str
deriving DecidableEq, Repr

/-- `ParsedStatement`. -/
structure ParsedStatement where
  openingBalance : ℚ
  closingBalance : ℚ
  periodStart : Str
  periodEnd : Str
  currency : Str
  accountNumber : Str
  transactions : List RawTx
deriving DecidableEq, Repr

/-- The continuation-line lookahead of the bank parser: collect trimmed
non-date lines (skipping footer lines) until a date line, a
`BALANCE B/F` marker, a section marker, or an empty line; returns the
collected lines and the unconsumed remainder (starting at the stop
line). -/
def collectCont : List Str → List Str × List Str
  | [] => ([], [])
  | l :: ls =>
    let nextLine := jsTrim l
    if nextLine = [] ∨ contStopDate nextLine
        ∨ isSubstrOf (str "BALANCE B/F") nextLine then
      ([], l :: ls)
    else if isSubstrOf (str "End of Transaction") nextLine
        ∨ isSubstrOf (str "Account Transaction") nextLine then
      ([], l :: ls)
    else if isFooterLine nextLine then
      collectCont ls
    else
      let r := collectCont ls
      (nextLine :: r.1, r.2)

/-- Join with single spaces (JS `Array.prototype.join(' ')`). -/
def joinSpace (xs : List Str) : Str := List.intercalate (str " ") xs

/-- Join with `" | "` (JS `join(' | ')`). -/
def joinPipe (xs : List Str) : Str := List.intercalate (str " | ") xs

/-- Parser state: opening balance, running closing balance, emitted
transactions. -/
structure BankSt where
  opening : ℚ
  closing : ℚ
  txs : List RawTx
deriving Repr

/-- Processing of one dated line (with its collected continuation lines):
the two-number branch, else the single/two-trailing-number branch; the
debit/credit sign comes from comparing the new balance with the previous
transaction's balance (or the opening balance read so far). -/
def bankProcessDated (year : Option ℤ) (dateStr restOfLine : Str)
    (cont : List Str) (st : BankSt) : BankSt :=
  let prevBalance :=
    match st.txs.getLast? with
    | some t => t.balance
    | none => st.opening
  if endTwoNums restOfLine then
    let parts := jsSplitWs restOfLine
    let numbers := parts.filter isNumTok
    if 2 ≤ numbers.length then
      let balance := parseNumStr (numbers.getLast?.getD [])
      let secondLast := parseNumStr ((numbers.get? (numbers.length - 2)).getD [])
      let descParts := parts.takeWhile (fun p => !(isNumTok p))
      let description := joinSpace descParts ++
        (if cont ≠ [] then str " | " ++ joinPipe cont else [])
      let amount := if balance < prevBalance then -secondLast else secondLast
      { st with
        txs := st.txs ++ [⟨bankParseStatementDate dateStr year,
          jsTrim description, amount, balance, none⟩],
        closing := balance }
    else st
  else
    match lastAmountSplit restOfLine with
    | some (beforeLast, lastTok) =>
      match lastAmountSplit beforeLast with
      | some (before2, prevTok) =>
        let amount_val := parseNumStr prevTok
        let balance := parseNumStr lastTok
        let amount := if balance < prevBalance then -amount_val else amount_val
        let description := jsTrim before2 ++
          (if cont ≠ [] then str " | " ++ joinPipe cont else [])
        { st with
          txs := st.txs ++ [⟨bankParseStatementDate dateStr year,
            description, amount, balance, none⟩],
          closing := balance }
      | none => st
    | none => st

/-- The main loop of the bank text parser over the section lines.
Fuel-structured (each iteration consumes at least one line, so
`fuel = lines.length` suffices). -/
def bankLoop (year : Option ℤ) : Nat → List Str → BankSt → BankSt
  | 0, _, st => st
  | _ + 1, [], st => st
  | fuel + 1, l :: ls, st =>
    let line := jsTrim l
    if isSubstrOf (str "BALANCE B/F") line then
      let st' :=
        match lastAmountSplit line with
        | some pr => if st.opening = 0 then { st with opening := parseNumStr pr.2 } else st
        | none => st
      bankLoop year fuel ls st'
    else
      match bankDateMatch line with
      | none => bankLoop year fuel ls st
      | some pr =>
        let r := collectCont ls
        bankLoop year fuel r.2 (bankProcessDated year pr.1 pr.2 r.1 st)

/-- `parseUOBOneStatement` (text-only path) from
`src/services/parsers/uobOneParser.ts`; thrown structural errors are the
`Except.error` cases. -/
def parseUOBOneStatementText (text : Str) : Except Str ParsedStatement :=
  match searchFirst matchPeriodAt text with
  | none => Except.error (str "Could not find statement period")
  | some pr =>
    let periodStart := bankParseUOBDate pr.1
    let periodEnd := bankParseUOBDate pr.2
    let accountNumber := (searchFirst matchAccountAt text).getD []
    let transactionStart := indexOfSub (str "Account Transaction Details") text
    let transactionEnd0 := indexOfSub (str "End of Transaction Details") text
    let ccStart := indexOfSub (str "Currency Conversion") text
    let transactionEnd :=
      match ccStart, transactionEnd0 with
      | some c, none => some c
      | some c, some e => if c < e then some c else some e
      | none, e => e
    match transactionStart, transactionEnd with
    | some ts, some te =>
      let transactionLines := splitNl (jsSubstring text ts te)
      let currentYear := jsDateYear periodEnd
      let st := bankLoop currentYear transactionLines.length transactionLines ⟨0, 0, []⟩
      let closing :=
        if st.closing = 0 then
          match searchFirst matchClosingAt text with
          | some v => v
          | none => st.closing
        else st.closing
      Except.ok ⟨st.opening, closing, periodStart, periodEnd, str "SGD",
        accountNumber, st.txs⟩
    | _, _ => Except.error (str "Could not find transaction section")

theorem parseFloatMag_nonneg (t : Str) : 0 ≤ (parseFloatMag t).getD 0 := by
  unfold parseFloatMag
  rcases hsp : spanDigits t with ⟨ip, r1⟩
  simp only [hsp]
  by_cases hc : ip = [] ∧ fracDigits r1 = []
  · rw [if_pos hc]
    exact le_refl 0
  · rw [if_neg hc]
    simp only [Option.getD_some]
    rw [Rat.mkRat_eq_div]
    positivity

theorem parseFloatQ_nonneg (s : Str) (h : ¬ '-' ∈ s) :
    0 ≤ (parseFloatQ s).getD 0 := by
  rcases hdw : s.dropWhile isJsWs with _ | ⟨c, cs⟩
  · simp only [parseFloatQ, hdw]
    exact parseFloatMag_nonneg []
  · have hc : ¬ (c = '-') := by
      intro he
      apply h
      have : c ∈ s.dropWhile isJsWs := hdw ▸ List.mem_cons_self c cs
      exact he ▸ (List.dropWhile_sublist isJsWs).mem this
    simp only [parseFloatQ, hdw]
    rw [if_neg hc]
    by_cases hp : c = '+'
    · rw [if_pos hp]
      exact parseFloatMag_nonneg cs
    · rw [if_neg hp]
      exact parseFloatMag_nonneg (c :: cs)

theorem parseNumStr_nonneg (p : Str) (h : ¬ '-' ∈ p) : 0 ≤ parseNumStr p := by
  unfold parseNumStr
  apply parseFloatQ_nonneg
  intro hm
  exact h (List.mem_of_mem_filter hm)

theorem mem_takeWhile_pred {p : Char → Bool} {a : Char} :
    ∀ {l : Str}, a ∈ l.takeWhile p → p a = true := by
  intro l
  induction l with
  | nil =>
    intro h
    exact absurd h (List.not_mem_nil a)
  | cons c cs ih =>
    intro h
    rw [List.takeWhile_cons] at h
    by_cases hc : p c
    · rw [if_pos hc] at h
      rcases List.mem_cons.mp h with he | ht
      · exact he ▸ hc
      · exact ih ht
    · rw [if_neg hc] at h
      exact absurd h (List.not_mem_nil a)

theorem isDigitComma_ne_neg {c : Char} (h : isDigitComma c = true) : c ≠ '-' := by
  intro he
  subst he
  exact absurd h (by decide)

theorem isDigitChar_ne_neg {c : Char} (h : isDigitChar c = true) : c ≠ '-' := by
  intro he
  subst he
  exact absurd h (by decide)

theorem isNumTok_no_neg {p : Str} (h : isNumTok p = true) : ¬ '-' ∈ p := by
  intro hm
  unfold isNumTok at h
  rw [Bool.and_eq_true] at h
  obtain ⟨_, h2⟩ := h
  have hp : p = p.takeWhile isDigitComma ++ p.dropWhile isDigitComma :=
    (List.takeWhile_append_dropWhile isDigitComma p).symm
  rw [hp] at hm
  rcases List.mem_append.mp hm with hrun | hrest
  · exact isDigitComma_ne_neg (mem_takeWhile_pred hrun) rfl
  · rcases hdw : p.dropWhile isDigitComma with _ | ⟨dot, r⟩
    · rw [hdw] at hrest
      exact absurd hrest (List.not_mem_nil _)
    · rcases r with _ | ⟨d1, r2⟩
      · rw [hdw] at h2
        exact absurd h2 (by simp)
      · rcases r2 with _ | ⟨d2, rest⟩
        · rw [hdw] at h2
          exact absurd h2 (by simp)
        · rw [hdw] at h2 hrest
          simp only [Bool.and_eq_true, decide_eq_true_eq] at h2
          obtain ⟨⟨⟨hdot, hd1⟩, hd2⟩, hrestE⟩ := h2
          have hrest0 : rest = [] := by simpa using hrestE
          subst hrest0
          rcases List.mem_cons.mp hrest with he | hr
          · exact absurd (he.trans hdot) (by decide)
          · rcases List.mem_cons.mp hr with he | hr2
            · exact isDigitChar_ne_neg hd1 he.symm
            · rcases List.mem_cons.mp hr2 with he | hr3
              · exact isDigitChar_ne_neg hd2 he.symm
              · exact absurd hr3 (List.not_mem_nil _)

theorem lastAmountSplit_no_neg {s before tok : Str}
    (h : lastAmountSplit s = some (before, tok)) : ¬ '-' ∈ tok := by
  intro hm
  unfold lastAmountSplit at h
  rcases hdw : s.reverse.dropWhile isJsWs with _ | ⟨d2, r⟩
  · rw [hdw] at h
    exact absurd h (by simp)
  · rcases r with _ | ⟨d1, r1⟩
    · rw [hdw] at h
      exact absurd h (by simp)
    · rcases r1 with _ | ⟨dot, r2⟩
      · rw [hdw] at h
        exact absurd h (by simp)
      · simp only [hdw] at h
        by_cases hcond : (dot = '.' && isDigitChar d2 && isDigitChar d1) = true
        · rw [if_pos hcond] at h
          simp only [Bool.and_eq_true, decide_eq_true_eq] at hcond
          obtain ⟨⟨hdot, hd2⟩, hd1⟩ := hcond
          by_cases hrun : r2.takeWhile isDigitComma ≠ []
          · rw [if_pos hrun] at h
            have htok : tok = (r2.takeWhile isDigitComma).reverse ++ '.' :: [d1, d2] := by
              have := Option.some.inj h
              exact (congrArg Prod.snd this).symm
            rw [htok] at hm
            rcases List.mem_append.mp hm with hrev | hdotl
            · exact isDigitComma_ne_neg
                (mem_takeWhile_pred (List.mem_reverse.mp hrev)) rfl
            · rcases List.mem_cons.mp hdotl with he | hr
              · exact absurd he.symm (by decide)
              · rcases List.mem_cons.mp hr with he | hr2
                · exact isDigitChar_ne_neg hd1 he.symm
                · rcases List.mem_cons.mp hr2 with he | hr3
                  · exact isDigitChar_ne_neg hd2 he.symm
                  · exact absurd hr3 (List.not_mem_nil _)
          · rw [if_neg hrun] at h
            exact absurd h (by simp)
        · rw [if_neg hcond] at h
          exact absurd h (by simp)

/-- The sign-consistency relation between consecutive emitted bank
transactions: the amount is non-positive when the running balance
decreased and non-negative otherwise. -/
def balanceSign (a b : RawTx) : Prop :=
  (b.balance < a.balance → b.amount ≤ 0) ∧ (a.balance ≤ b.balance → 0 ≤ b.amount)

theorem chain_snoc_sign {txs : List RawTx} {prev bal X : ℚ} {dt ds : Str}
    (h : List.Chain' balanceSign txs) (hX : 0 ≤ X)
    (hprev : ∀ x, txs.getLast? = some x → prev = x.balance) :
    List.Chain' balanceSign
      (txs ++ [⟨dt, ds, if bal < prev then -X else X, bal, none⟩]) := by
  rw [List.chain'_append]
  refine ⟨h, List.chain'_singleton _, ?_⟩
  intro x hx y hy
  simp only [List.head?_cons, Option.mem_def, Option.some.injEq] at hy
  subst hy
  have hp : prev = x.balance := hprev x (by simpa using hx)
  constructor
  · intro hlt
    show (if bal < prev then -X else X) ≤ 0
    rw [if_pos (by rw [hp]; exact hlt)]
    exact neg_nonpos.mpr hX
  · intro hge
    show 0 ≤ (if bal < prev then -X else X)
    rw [if_neg (by rw [hp]; exact not_lt.mpr hge)]
    exact hX

theorem bankProcessDated_chain (year : Option ℤ) (d r : Str) (cont : List Str)
    (st : BankSt) (h : List.Chain' balanceSign st.txs) :
    List.Chain' balanceSign (bankProcessDated year d r cont st).txs := by
  unfold bankProcessDated
  by_cases h2 : endTwoNums r = true
  · rw [if_pos h2]
    by_cases hn : 2 ≤ ((jsSplitWs r).filter isNumTok).length
    · rw [if_pos hn]
      have hX : 0 ≤ parseNumStr
          ((((jsSplitWs r).filter isNumTok).get?
            (((jsSplitWs r).filter isNumTok).length - 2)).getD []) := by
        cases hg : ((jsSplitWs r).filter isNumTok).get?
            (((jsSplitWs r).filter isNumTok).length - 2) with
        | none =>
          have := List.get?_eq_none.mp hg
          omega
        | some tok =>
          have hmem : tok ∈ (jsSplitWs r).filter isNumTok := List.get?_mem hg
          have htok : isNumTok tok = true := (List.mem_filter.mp hmem).2
          exact parseNumStr_nonneg tok (isNumTok_no_neg htok)
      exact chain_snoc_sign h hX (fun x hx => by rw [hx])
    · rw [if_neg hn]
      exact h
  · rw [if_neg h2]
    cases hls : lastAmountSplit r with
    | none =>
      simp only [hls]
      exact h
    | some pr =>
      simp only [hls]
      cases hls2 : lastAmountSplit pr.1 with
      | none => exact h
      | some pr2 =>
        have hX : 0 ≤ parseNumStr pr2.2 := by
          rcases pr2 with ⟨b2, ptok⟩
          exact parseNumStr_nonneg ptok (lastAmountSplit_no_neg hls2)
        exact chain_snoc_sign h hX (fun x hx => by rw [hx])

theorem bankLoop_chain (year : Option ℤ) :
    ∀ (fuel : Nat) (lines : List Str) (st : BankSt),
      List.Chain' balanceSign st.txs →
      List.Chain' balanceSign (bankLoop year fuel lines st).txs := by
  intro fuel
  induction fuel with
  | zero =>
    intro lines st h
    exact h
  | succ fuel ih =>
    intro lines st h
    cases lines with
    | nil => exact h
    | cons l ls =>
      simp only [bankLoop]
      by_cases hbf : isSubstrOf (str "BALANCE B/F") (jsTrim l) = true
      · rw [if_pos hbf]
        apply ih
        cases hla : lastAmountSplit (jsTrim l) with
        | none => exact h
        | some pr =>
          have hred : (match some pr with
              | some pr =>
                if st.opening = 0 then
                  ({ st with opening := parseNumStr pr.2 } : BankSt)
                else st
              | none => st)
            = if st.opening = 0 then
                ({ st with opening := parseNumStr pr.2 } : BankSt)
              else st := rfl
          rw [hred]
          by_cases hop : st.opening = 0
          · rw [if_pos hop]
            exact h
          · rw [if_neg hop]
            exact h
      · rw [if_neg hbf]
        cases hdm : bankDateMatch (jsTrim l) with
        | none => exact ih ls st h
        | some pr =>
          exact ih _ _ (bankProcessDated_chain year pr.1 pr.2 (collectCont ls).1 st h)

/-- **C4 (amended).** The text-only path of the single-balance bank
parser guarantees only sign-consistency between consecutive emitted
transactions: each transaction after the first has a non-positive amount
when its printed balance decreased from the previous transaction's
balance and a non-negative amount otherwise.  Nothing stronger holds:
the printed magnitude is taken from the statement unchecked, so
`balance_after = balance_before + amount` can fail; and the first
transaction's sign is computed against the in-flight opening-balance
state (`0` until a `BALANCE B/F` line has been seen), not against the
reported opening balance, so it need not be sign-consistent with the
latter when the `B/F` line follows the first transaction (both failures
are in the counterexample).  The layout-based path, which assigns signs
by item column position rather than balance movement, is outside this
property. -/
theorem C4_balance_delta_sign (text : Str) (ps : ParsedStatement)
    (hok : parseUOBOneStatementText text = Except.ok ps) :
    List.Chain' balanceSign ps.transactions := by
  unfold parseUOBOneStatementText at hok
  cases hper : searchFirst matchPeriodAt text with
  | none =>
    rw [hper] at hok
    exact absurd hok (by simp)
  | some pr =>
    simp only [hper] at hok
    split at hok
    · simp only [Except.ok.injEq] at hok
      subst hok
      exact bankLoop_chain _ _ _ _ List.chain'_nil
    · exact absurd hok (by simp)

/-- A small consistent statement: opening 100.00, a 40.00 debit down to
60.00 (with a folded continuation line), then a 50.00 credit up to
110.00. -/
def bankDemoText : Str :=
  str "Period: 01 Jan 2025 to 31 Jan 2025\nAccount Transaction Details\nBALANCE B/F 100.00\n02 Jan NETS PAYMENT 40.00 60.00\nREF 123\n03 Jan SALARY CREDIT 50.00 110.00\nEnd of Transaction Details"

/-- The statement `bankDemoText` parses to. -/
def bankDemoParsed : ParsedStatement :=
  ⟨100, 110, str "2025-01-01", str "2025-01-31", str "SGD", [],
   [⟨str "2025-01-02", str "NETS PAYMENT | REF 123", -40, 60, none⟩,
    ⟨str "2025-01-03", str "SALARY CREDIT", 50, 110, none⟩]⟩

theorem except_ok_of_toOption {ε α : Type} {e : Except ε α} {a : α}
    (h : e.toOption = some a) : e = Except.ok a := by
  cases e with
  | error b => exact absurd h (by simp [Except.toOption])
  | ok b =>
    simp only [Except.toOption, Option.some.injEq] at h
    rw [h]

/-- Witness for C4: the demo statement parses successfully and its two
transactions satisfy the sign-consistency relation. -/
theorem C4_balance_delta_sign_witness :
    parseUOBOneStatementText bankDemoText = Except.ok bankDemoParsed ∧
    List.Chain' balanceSign bankDemoParsed.transactions :=
  ⟨except_ok_of_toOption (by decide),
   C4_balance_delta_sign bankDemoText bankDemoParsed
     (except_ok_of_toOption (by decide))⟩

/-- A statement whose printed amount (100.00) does not match the printed
balance movement (opening 0 to 50.00). -/
def bankBadText : Str :=
  str "Period: 01 Jan 2025 to 31 Jan 2025\nAccount Transaction Details\n01 Jan FOO 100.00 50.00\nEnd of Transaction Details"

/-- A statement whose `BALANCE B/F` line comes after the first
transaction line, so the first transaction's sign is decided while the
opening-balance state is still `0`. -/
def bankLateBFText : Str :=
  str "Period: 01 Jan 2025 to 31 Jan 2025\nAccount Transaction Details\n01 Jan FOO 100.00 50.00\nBALANCE B/F 999.00\nEnd of Transaction Details"

/-- **C4 counterexample.** (1) The parser emits the transaction
`amount = 100, balance = 50` against opening balance `0` without any
consistency check, and `50 ≠ 0 + 100`: `balance_after` is not
`balance_before + amount`.  (2) With the `BALANCE B/F 999.00` line
after the first transaction line, the statement parses to reported
opening balance `999` and first transaction `(amount 100, balance 50)`:
the balance decreased from the reported opening balance yet the amount
is positive, so the first transaction need not be sign-consistent with
the reported opening balance. -/
theorem C4_balance_delta_counterexample :
    (((parseUOBOneStatementText bankBadText).toOption.map
        (fun ps => (ps.openingBalance,
          ps.transactions.map (fun t => (t.amount, t.balance)))))
      = some ((0 : ℚ), [((100 : ℚ), (50 : ℚ))]) ∧
    ¬ ((50 : ℚ) = 0 + 100)) ∧
    (((parseUOBOneStatementText bankLateBFText).toOption.map
        (fun ps => (ps.openingBalance,
          ps.transactions.map (fun t => (t.amount, t.balance)))))
      = some ((999 : ℚ), [((100 : ℚ), (50 : ℚ))]) ∧
    (50 : ℚ) < 999 ∧ ¬ ((100 : ℚ) ≤ 0)) := by
  refine ⟨⟨by decide, by norm_num⟩, by decide, by decide, by decide⟩

/-! ## UOB credit-card statement parser (`src/unnamed/part_008`,
`parseUOBCreditCardStatement`) -/

/-- The apostrophe character (U+0027). -/
def apos : Char := Char.ofNat 39

/-- Lowercased text of the `LADY'S CARD` pattern. -/
def ladysCardLower : Str := str "lady" ++ [apos] ++ str "s card"

/-- `[A-Z]`. -/
def isUpperChar (c : Char) : Bool := 65 ≤ c.toNat && c.toNat ≤ 90

/-- `detectCardHeader`: the trimmed line when it matches one of the
anchored, case-insensitive `CARD_PATTERNS` (the `KrisFlyer UOB.*`
pattern is a prefix match whose tail may not cross a line terminator). -/
def detectCardHeader (text : Str) : Option Str :=
  let trimmed := jsTrim text
  let lt := jsToLowerCase trimmed
  if lt = str "uob one card" ∨ lt = ladysCardLower ∨
      lt = str "uob privi miles card" ∨ lt = str "uob visa signature card" ∨
      lt = str "uob prvi miles card" ∨ lt = str "uob absolute cashback card" ∨
      ((str "krisflyer uob").isPrefixOf lt ∧ (lt.drop 13).all isDotChar) then
    some trimmed
  else none

/-- `shouldSkipLine`: the anchored `SKIP_PATTERNS` (case-insensitive)
plus the case-sensitive footer substrings. -/
def shouldSkipLine (text : Str) : Bool :=
  let trimmed := jsTrim text
  let lt := jsToLowerCase trimmed
  lt == str "previous balance" ||
  (str "paymt thru e-bank").isPrefixOf lt ||
  ((str "payment").isPrefixOf lt && gapThen (str "received") (lt.drop 7)) ||
  (str "credit adjustment").isPrefixOf lt ||
  lt == str "sub total" ||
  (str "total balance for").isPrefixOf lt ||
  isSubstrOf (str "United Overseas Bank") trimmed ||
  isSubstrOf (str "请注意") trimmed ||
  isSubstrOf (str "Please note that you are bound") trimmed ||
  (isSubstrOf (str "Page ") trimmed && isSubstrOf (str " of ") trimmed)

/-- Foreign-currency annotation `/^([A-Z]{3})\s+([\d,.]+)$/`. -/
def matchForeign (s : Str) : Option (Str × Str) :=
  let up := s.takeWhile isUpperChar
  if up.length = 3 then
    let (w, r2) := spanWs (s.dropWhile isUpperChar)
    if w ≠ [] then
      let run := r2.takeWhile (fun c => isDigitChar c || c = ',' || c = '.')
      if run ≠ [] ∧ r2.dropWhile (fun c => isDigitChar c || c = ',' || c = '.') = [] then
        some (up, run)
      else none
    else none
  else none

/-- `(\d{2}\s+\w{3})` at the current position: the captured text and the
remainder. -/
def matchDDMon (s : Str) : Option (Str × Str) :=
  let (d, r1) := spanDigits s
  if d.length = 2 then
    let (w1, r2) := spanWs r1
    if w1 ≠ [] then
      let (mon, r3) := spanWord r2
      if mon.length = 3 then some (d ++ w1 ++ mon, r3) else none
    else none
  else none

/-- Full-token test `/^\d{2}\s+\w{3}$/`. -/
def isDDMonTok (s : Str) : Bool :=
  match matchDDMon s with
  | some pr => pr.2.isEmpty
  | none => false

/-- The tail `\s+([\d,]+\.\d{2})(?:\s+CR)?$` after the lazy description:
returns the captured amount. -/
def creditTailMatch (rest : Str) : Option Str :=
  let (w, r1) := spanWs rest
  if w ≠ [] then
    let run := r1.takeWhile isDigitComma
    if run ≠ [] then
      match r1.dropWhile isDigitComma with
      | dot :: a :: b :: r2 =>
        if dot = '.' && isDigitChar a && isDigitChar b then
          if r2 = [] then some (run ++ '.' :: [a, b])
          else
            let (w2, r3) := spanWs r2
            if w2 ≠ [] ∧ r3 = str "CR" then some (run ++ '.' :: [a, b])
            else none
        else none
      | _ => none
    else none
  else none

/-- The lazy `(.+?)` search: extend the description one character at a
time (never across a line terminator) until the end-anchored tail
matches; returns the description and amount captures. -/
def creditLazyDesc (dAcc : Str) : Str → Option (Str × Str)
  | [] => none
  | c :: rest =>
    if isDotChar c then
      match creditTailMatch rest with
      | some amt => some (dAcc ++ [c], amt)
      | none => creditLazyDesc (dAcc ++ [c]) rest
    else none

/-- The transaction-row regex
`/^(\d{2}\s+\w{3})\s+(\d{2}\s+\w{3})\s+(.+?)\s+([\d,]+\.\d{2})(?:\s+CR)?$/`:
post date, transaction date, description, amount. -/
def creditTxMatch (line : Str) : Option (Str × Str × Str × Str) :=
  match matchDDMon line with
  | some pr1 =>
    let (w1, r2) := spanWs pr1.2
    if w1 ≠ [] then
      match matchDDMon r2 with
      | some pr2 =>
        let (w2, r4) := spanWs pr2.2
        if w2 ≠ [] then
          match creditLazyDesc [] r4 with
          | some pr3 => some (pr1.1, pr2.1, pr3.1, pr3.2)
          | none => none
        else none
      | none => none
    else none
  | none => none

/-- The credit parser's month table (`parseUOBDate`, title-case and
upper-case keys). -/
def creditMonths : List (Str × Str) :=
  bankMonths ++
  [(str "JAN", str "01"), (str "FEB", str "02"), (str "MAR", str "03"),
   (str "APR", str "04"), (str "MAY", str "05"), (str "JUN", str "06"),
   (str "JUL", str "07"), (str "AUG", str "08"), (str "SEP", str "09"),
   (str "OCT", str "10"), (str "NOV", str "11"), (str "DEC", str "12")]

/-- The credit parser's `parseUOBDate` (falls back to month `01`). -/
def creditParseUOBDate (dateStr : Str) : Str :=
  let parts := jsSplitWs (jsTrim dateStr)
  let day := padStart2 (parts.getD 0 [])
  let month :=
    (match parts.get? 1 with
     | some m => creditMonths.lookup m
     | none => none).getD (str "01")
  let year := (parts.get? 2).getD (str "undefined")
  year ++ str "-" ++ month ++ str "-" ++ day

/-- The credit parser's `parseStatementDate` (`none` year = `NaN`). -/
def creditParseStatementDate (dateStr : Str) (year : Option ℤ) : Str :=
  let parts := jsSplitWs (jsTrim dateStr)
  let day := padStart2 (parts.getD 0 [])
  let month :=
    (match parts.get? 1 with
     | some m => creditMonths.lookup m
     | none => none).getD (str "01")
  let yearStr := match year with | some y => intStr y | none => str "NaN"
  yearStr ++ str "-" ++ month ++ str "-" ++ day

/-- `Statement Date\s+(\d{1,2}\s+\w{3}\s+\d{4})` (case-insensitive search,
original-case capture) anchored at the current position. -/
def matchStmtDateHdrAt (s : Str) : Option Str :=
  if jsToLowerCase (s.take 14) = str "statement date" then
    let (w, r1) := spanWs (s.drop 14)
    if w ≠ [] then
      let (d, r2) := spanDigits r1
      if 1 ≤ d.length ∧ d.length ≤ 2 then
        let (w1, r3) := spanWs r2
        if w1 ≠ [] then
          let (mon, r4) := spanWord r3
          if mon.length = 3 then
            let (w2, r5) := spanWs r4
            if w2 ≠ [] then
              let y := (spanDigits r5).1
              if 4 ≤ y.length then some (d ++ w1 ++ mon ++ w2 ++ y.take 4)
              else none
            else none
          else none
        else none
      else none
    else none
  else none

/-- The running state of the credit-card parsers: current card name and
the transactions pushed so far. -/
structure CreditSt where
  card : Str
  txs : List RawTx
deriving Repr

/-- One line of the credit parser's text-only loop: empty-line skip, card
header, skip patterns, then the transaction-row match (emitted only
while a card is active; the date comes from the second captured date and
the sign from the `CR` suffix). -/
def creditTextLineStep (year : Option ℤ) (line : Str) (st : CreditSt) : CreditSt :=
  if line = [] then st
  else
    match detectCardHeader line with
    | some t => ⟨t, st.txs⟩
    | none =>
      if shouldSkipLine line then st
      else
        match creditTxMatch line with
        | some m =>
          if st.card ≠ [] then
            let amt0 := parseNumStr m.2.2.2
            let amount := if strEndsWith (str " CR") line then amt0 else -(abs amt0)
            ⟨st.card, st.txs ++ [⟨creditParseStatementDate m.2.1 year,
              jsTrim m.2.2.1, amount, 0, some st.card⟩]⟩
          else st
        | none => st

/-- `parseTextOnly` of the credit-card parser.  `nowYear` models
`new Date().getFullYear()` (wall-clock). -/
def creditParseTextOnly (nowYear : ℤ) (text : Str) : ParsedStatement :=
  let st := (splitNl text).foldl
    (fun st l => creditTextLineStep (some nowYear) (jsTrim l) st) ⟨[], []⟩
  ⟨0, 0, [], [], str "SGD", [], st.txs⟩

/-- One positioned text run (`PDFItem`); only the string content is
consumed by the credit-card layout parser, so the coordinates are not
modelled. -/
structure PDFItem where
  txt : Str
deriving DecidableEq, Repr

/-- One visual row (`PDFLine`): joined text plus its items. -/
structure PDFLine where
  text : Str
  items : List PDFItem
deriving DecidableEq, Repr

/-- Card-number row test `/^(\d{4}-\d{4}-\d{4}-\d{4})\s+/`. -/
def isCardNumberRow (s : Str) : Bool :=
  let (a, r1) := spanDigits s
  a.length = 4 &&
    (match r1 with
     | '-' :: r2 =>
       let (b, r3) := spanDigits r2
       b.length = 4 &&
         (match r3 with
          | '-' :: r4 =>
            let (c, r5) := spanDigits r4
            c.length = 4 &&
              (match r5 with
               | '-' :: r6 =>
                 let (d, r7) := spanDigits r6
                 d.length = 4 && (spanWs r7).1 ≠ []
               | _ => false)
          | _ => false)
     | _ => false)

/-- Append a suffix to the last transaction's description (the
foreign-currency annotation attachment); tags are untouched. -/
def modifyLastDesc : List RawTx → Str → List RawTx
  | [], _ => []
  | [t], sfx => [{ t with description := t.description ++ sfx }]
  | t :: t2 :: ts, sfx => t :: modifyLastDesc (t2 :: ts) sfx

/-- JS number-to-string on the two-decimal values this parser produces
(shortest decimal form, no trailing zeros); used only to build the
post-hoc dedup key. -/
def jsNumStr (q : ℚ) : Str :=
  let m : Nat := (q.num.natAbs * 100) / q.den
  let intPart := m / 100
  let frac := m % 100
  let core :=
    if frac = 0 then natDigits intPart
    else if frac % 10 = 0 then natDigits intPart ++ str "." ++ natDigits (frac / 10)
    else natDigits intPart ++ str "." ++ pad2Nat frac
  if q < 0 then '-' :: core else core

/-- The credit parser's dedup key `${date}|${description}|${amount}`. -/
def creditTxKeyStr (t : RawTx) : Str :=
  t.date ++ str "|" ++ t.description ++ str "|" ++ jsNumStr t.amount

/-- The exact-key post-hoc dedup filter at the end of the layout path. -/
def creditDedupGo (seen : List Str) : List RawTx → List RawTx
  | [] => []
  | t :: ts =>
    let key := creditTxKeyStr t
    if seen.contains key then creditDedupGo seen ts
    else t :: creditDedupGo (seen ++ [key]) ts

/-- The `dateMatch && currentCardName` item-based fallback branch of the
layout loop: amount from the last numeric item, `CR` item detection,
description from the remaining items, transaction date from the second
(else first) bare-date item — whose access throws a `TypeError` when no
item is a bare date token. -/
def creditPositionalStep (year : Option ℤ) (line : PDFLine) (text : Str)
    (st : CreditSt) : Except Str CreditSt :=
  if (matchDDMon text).isSome ∧ st.card ≠ [] then
    let numberItems := line.items.filter (fun it => isNumTok (jsTrim it.txt))
    match numberItems.getLast? with
    | some amountItem =>
      let amount0 := parseNumStr amountItem.txt
      let isCreditRefund := line.items.any (fun it => jsTrim it.txt = str "CR")
      let descItems := line.items.filter (fun it =>
        let s := jsTrim it.txt
        !(isDDMonTok s) && !(isNumTok s) && !(s == str "CR") && !(s.isEmpty))
      let dateItems := line.items.filter (fun it => isDDMonTok (jsTrim it.txt))
      match dateItems with
      | [] => Except.error (str "TypeError: dateItems[0] is undefined")
      | d0 :: drest =>
        let transDate := jsTrim (match drest with
          | d1 :: _ => d1.txt
          | [] => d0.txt)
        let description := jsTrim (joinSpace (descItems.map (fun it => it.txt)))
        if description ≠ [] ∧ shouldSkipLine description = false then
          Except.ok ⟨st.card, st.txs ++ [⟨creditParseStatementDate transDate year,
            description,
            (if isCreditRefund then abs amount0 else -(abs amount0)), 0,
            some st.card⟩]⟩
        else Except.ok st
    | none => Except.ok st
  else Except.ok st

/-- The primary-regex and positional branches of the layout loop body for
a non-header line (skip patterns, foreign-currency attachment, `Ref No.`
skip, regex transaction match, then the item-based fallback). -/
def creditLayoutStep (year : Option ℤ) (line : PDFLine) (st : CreditSt) :
    Except Str CreditSt :=
  let text := jsTrim line.text
  if shouldSkipLine text then Except.ok st
  else if (match matchForeign text with
           | some _ => st.txs ≠ []
           | none => false : Bool) then
    Except.ok ⟨st.card, modifyLastDesc st.txs
      (match matchForeign text with
       | some pr => str " (" ++ pr.1 ++ str " " ++ pr.2 ++ str ")"
       | none => [])⟩
  else if (str "Ref No.").isPrefixOf text then Except.ok st
  else
    match creditTxMatch text with
    | some m =>
      if st.card ≠ [] then
        let amt0 := parseNumStr m.2.2.2
        let amount := if strEndsWith (str " CR") text then amt0 else -(abs amt0)
        Except.ok ⟨st.card, st.txs ++ [⟨creditParseStatementDate m.2.1 year,
          jsTrim m.2.2.1, amount, 0, some st.card⟩]⟩
      else creditPositionalStep year line text st
    | none => creditPositionalStep year line text st

/-- `parseWithLayout` of the credit-card parser: the per-line loop with
card-header detection (consuming a following card-number row) and the
two extraction branches per line.  Fuel-structured; each iteration
consumes at least one line, so `fuel = lines.length` suffices. -/
def creditLayoutLoop (year : Option ℤ) :
    Nat → List PDFLine → CreditSt → Except Str CreditSt
  | 0, _, st => Except.ok st
  | _ + 1, [], st => Except.ok st
  | fuel + 1, line :: rest, st =>
    let text := jsTrim line.text
    if text = [] then creditLayoutLoop year fuel rest st
    else
      match detectCardHeader text with
      | some t =>
        match rest with
        | next :: rest2 =>
          if isCardNumberRow (jsTrim next.text) then
            creditLayoutLoop year fuel rest2 ⟨t, st.txs⟩
          else creditLayoutLoop year fuel (next :: rest2) ⟨t, st.txs⟩
        | [] => Except.ok ⟨t, st.txs⟩
      | none =>
        match creditLayoutStep year line st with
        | Except.ok st' => creditLayoutLoop year fuel rest st'
        | Except.error e => Except.error e

/-- `parseWithLayout` of the credit-card parser, top level. -/
def parseUOBCreditCardLayout (nowYear : ℤ) (lines : List PDFLine)
    (fullText : Str) : Except Str ParsedStatement :=
  let statementDate :=
    match searchFirst matchStmtDateHdrAt fullText with
    | some g => creditParseUOBDate g
    | none => []
  let currentYear : Option ℤ :=
    if statementDate ≠ [] then jsDateYear statementDate else some nowYear
  match creditLayoutLoop currentYear lines.length lines ⟨[], []⟩ with
  | Except.error e => Except.error e
  | Except.ok st =>
    Except.ok ⟨0, 0, statementDate, statementDate, str "SGD", [],
      creditDedupGo [] st.txs⟩

/-- `parseUOBCreditCardStatement`: the layout path when positioned lines
are available, otherwise the text-only path (an empty list models an
absent/empty `input.lines`). -/
def parseUOBCreditCardStatement (nowYear : ℤ) (lines : List PDFLine)
    (text : Str) : Except Str ParsedStatement :=
  if lines ≠ [] then parseUOBCreditCardLayout nowYear lines text
  else Except.ok (creditParseTextOnly nowYear text)

/-! ## C5: structure errors -/

/-- **C5 (corrected).**  Only the single-balance bank text parser has the
claimed behaviour: when the statement-period marker is absent it fails
with the `StatementStructureError` message and returns no partial
result, and a successful parse implies that the period marker and both
section-boundary markers (start, and at least one of the two end
markers) were located in the text.  (The credit-card parser does not:
see the counterexample.) -/
theorem C5_structure_errors (text : Str) :
    (searchFirst matchPeriodAt text = none →
      parseUOBOneStatementText text
        = Except.error (str "Could not find statement period")) ∧
    (∀ ps, parseUOBOneStatementText text = Except.ok ps →
      (searchFirst matchPeriodAt text).isSome = true ∧
      (indexOfSub (str "Account Transaction Details") text).isSome = true ∧
      ((indexOfSub (str "End of Transaction Details") text).isSome = true ∨
       (indexOfSub (str "Currency Conversion") text).isSome = true)) := by
  constructor
  · intro h
    unfold parseUOBOneStatementText
    rw [h]
  · intro ps hok
    unfold parseUOBOneStatementText at hok
    cases hper : searchFirst matchPeriodAt text with
    | none =>
      rw [hper] at hok
      exact absurd hok (by simp)
    | some pr =>
      simp only [hper] at hok
      refine ⟨rfl, ?_⟩
      split at hok
      · rename_i ts te hts hte
        refine ⟨by rw [hts]; rfl, ?_⟩
        cases hcc : indexOfSub (str "Currency Conversion") text with
        | some c => exact Or.inr rfl
        | none =>
          cases hen : indexOfSub (str "End of Transaction Details") text with
          | some e => exact Or.inl rfl
          | none =>
            rw [hcc, hen] at hte
            simp at hte
      · exact absurd hok (by simp)

/-- A text containing none of the statement-structure markers. -/
def noMarkerText : Str := str "hello world"

/-- Witness for C5: the plain text `hello world` has no period marker and
the bank parser rejects it with the structure error; the demo bank
statement parses and all three markers are indeed present in it. -/
theorem C5_structure_errors_witness :
    parseUOBOneStatementText noMarkerText
      = Except.error (str "Could not find statement period") ∧
    ((searchFirst matchPeriodAt bankDemoText).isSome = true ∧
     (indexOfSub (str "Account Transaction Details") bankDemoText).isSome = true ∧
     ((indexOfSub (str "End of Transaction Details") bankDemoText).isSome = true ∨
      (indexOfSub (str "Currency Conversion") bankDemoText).isSome = true)) :=
  ⟨(C5_structure_errors noMarkerText).1 (by decide),
   (C5_structure_errors bankDemoText).2 bankDemoParsed
     (except_ok_of_toOption (by decide))⟩

/-- **C5 counterexample.**  The credit-card statement parser succeeds on
a text that contains neither the statement-period marker nor any
transaction-section boundary marker: it returns a (degenerate) parsed
statement instead of a `StatementStructureError`, refuting the claim
for "every Statement Format Parser". -/
theorem C5_credit_counterexample :
    searchFirst matchPeriodAt noMarkerText = none ∧
    indexOfSub (str "Account Transaction Details") noMarkerText = none ∧
    indexOfSub (str "End of Transaction Details") noMarkerText = none ∧
    (parseUOBCreditCardStatement 2025 [] noMarkerText).toOption
      = some ⟨0, 0, [], [], str "SGD", [], []⟩ :=
  ⟨by decide, by decide, by decide, by decide⟩

/-! ## C6: credit-card transaction rows -/

theorem creditTailMatch_no_neg {r amt : Str}
    (h : creditTailMatch r = some amt) : ¬ '-' ∈ amt := by
  intro hm
  unfold creditTailMatch at h
  rcases hws : spanWs r with ⟨w, r1⟩
  simp only [hws] at h
  by_cases hw : w ≠ []
  · rw [if_pos hw] at h
    by_cases hrun : r1.takeWhile isDigitComma ≠ []
    · rw [if_pos hrun] at h
      rcases hdw : r1.dropWhile isDigitComma with _ | ⟨dot, rr⟩
      · rw [hdw] at h
        exact absurd h (by simp)
      · rcases rr with _ | ⟨a, rr2⟩
        · rw [hdw] at h
          exact absurd h (by simp)
        · rcases rr2 with _ | ⟨b, r2⟩
          · rw [hdw] at h
            exact absurd h (by simp)
          · simp only [hdw] at h
            by_cases hcond : (dot = '.' && isDigitChar a && isDigitChar b) = true
            · rw [if_pos hcond] at h
              simp only [Bool.and_eq_true, decide_eq_true_eq] at hcond
              obtain ⟨⟨hdot, ha⟩, hb⟩ := hcond
              have htok : amt = r1.takeWhile isDigitComma ++ '.' :: [a, b] := by
                by_cases hr2 : r2 = []
                · rw [if_pos hr2] at h
                  exact (Option.some.inj h).symm
                · rw [if_neg hr2] at h
                  rcases hws2 : spanWs r2 with ⟨w2, r3⟩
                  simp only [hws2] at h
                  by_cases hcr : w2 ≠ [] ∧ r3 = str "CR"
                  · rw [if_pos hcr] at h
                    exact (Option.some.inj h).symm
                  · rw [if_neg hcr] at h
                    exact absurd h (by simp)
              rw [htok] at hm
              rcases List.mem_append.mp hm with hrun2 | hdotl
              · exact isDigitComma_ne_neg (mem_takeWhile_pred hrun2) rfl
              · rcases List.mem_cons.mp hdotl with he | hr
                · exact absurd he (by decide)
                · rcases List.mem_cons.mp hr with he | hr2
                  · exact isDigitChar_ne_neg ha he.symm
                  · rcases List.mem_cons.mp hr2 with he | hr3
                    · exact isDigitChar_ne_neg hb he.symm
                    · exact absurd hr3 (List.not_mem_nil _)
            · rw [if_neg hcond] at h
              exact absurd h (by simp)
    · rw [if_neg hrun] at h
      exact absurd h (by simp)
  · rw [if_neg hw] at h
    exact absurd h (by simp)

theorem creditLazyDesc_amt : ∀ (r dAcc d amt : Str),
    creditLazyDesc dAcc r = some (d, amt) →
    ∃ r2, creditTailMatch r2 = some amt := by
  intro r
  induction r with
  | nil =>
    intro dAcc d amt h
    exact absurd h (by simp [creditLazyDesc])
  | cons c rest ih =>
    intro dAcc d amt h
    unfold creditLazyDesc at h
    by_cases hdot : isDotChar c = true
    · rw [if_pos hdot] at h
      cases htm : creditTailMatch rest with
      | some amt2 =>
        simp only [htm] at h
        refine ⟨rest, ?_⟩
        rw [htm]
        exact congrArg some (congrArg Prod.snd (Option.some.inj h))
      | none =>
        simp only [htm] at h
        exact ih _ _ _ h
    · rw [if_neg hdot] at h
      exact absurd h (by simp)

theorem creditTxMatch_amt {line : Str} {m : Str × Str × Str × Str}
    (h : creditTxMatch line = some m) :
    ∃ r2, creditTailMatch r2 = some m.2.2.2 := by
  unfold creditTxMatch at h
  cases h1 : matchDDMon line with
  | none =>
    rw [h1] at h
    exact absurd h (by simp)
  | some pr1 =>
    simp only [h1] at h
    rcases hws1 : spanWs pr1.2 with ⟨w1, r2⟩
    simp only [hws1] at h
    by_cases hw1 : w1 ≠ []
    · rw [if_pos hw1] at h
      cases h2 : matchDDMon r2 with
      | none =>
        rw [h2] at h
        exact absurd h (by simp)
      | some pr2 =>
        simp only [h2] at h
        rcases hws2 : spanWs pr2.2 with ⟨w2, r4⟩
        simp only [hws2] at h
        by_cases hw2 : w2 ≠ []
        · rw [if_pos hw2] at h
          cases h3 : creditLazyDesc [] r4 with
          | none =>
            rw [h3] at h
            exact absurd h (by simp)
          | some pr3 =>
            simp only [h3] at h
            rcases pr3 with ⟨d3, amt3⟩
            have hmm : m.2.2.2 = amt3 := by
              rw [← Option.some.inj h]
            rw [hmm]
            exact creditLazyDesc_amt r4 [] d3 amt3 h3
        · rw [if_neg hw2] at h
          exact absurd h (by simp)
    · rw [if_neg hw1] at h
      exact absurd h (by simp)

/-- **C6 (corrected).**  A credit-statement row matching the transaction
regex while a card is active is emitted with date built from the second
captured (transaction) date — the posting date capture is not used — and
with amount `-|a|` when the `CR` suffix is absent and `+|a|` (the raw
parsed magnitude, which is non-negative) when it is present.  The amount
is therefore non-positive without `CR` and non-negative with it, and the
claimed strict signs hold only when the printed magnitude is nonzero
(see the `0.00` counterexample). -/
theorem C6_credit_row_date_and_sign (year : Option ℤ) (line : Str)
    (st : CreditSt) (g1 g2 desc amtStr : Str)
    (hne : line ≠ [])
    (hhdr : detectCardHeader line = none)
    (hskip : shouldSkipLine line = false)
    (hm : creditTxMatch line = some (g1, g2, desc, amtStr))
    (hcard : st.card ≠ []) :
    ∃ t : RawTx, creditTextLineStep year line st = ⟨st.card, st.txs ++ [t]⟩ ∧
      t.date = creditParseStatementDate g2 year ∧
      (strEndsWith (str " CR") line = false →
        t.amount ≤ 0 ∧ (parseNumStr amtStr ≠ 0 → t.amount < 0)) ∧
      (strEndsWith (str " CR") line = true →
        0 ≤ t.amount ∧ (parseNumStr amtStr ≠ 0 → 0 < t.amount)) := by
  obtain ⟨r2, hr2⟩ := creditTxMatch_amt hm
  have hnn : 0 ≤ parseNumStr amtStr :=
    parseNumStr_nonneg _ (creditTailMatch_no_neg hr2)
  refine ⟨⟨creditParseStatementDate g2 year, jsTrim desc,
    (if strEndsWith (str " CR") line then parseNumStr amtStr
     else -(abs (parseNumStr amtStr))), 0, some st.card⟩, ?_, rfl, ?_, ?_⟩
  · unfold creditTextLineStep
    rw [if_neg hne]
    simp only [hhdr]
    rw [if_neg (by rw [hskip]; exact Bool.false_ne_true)]
    simp only [hm]
    rw [if_pos hcard]
  · intro hcr
    have hneq : ¬ (strEndsWith (str " CR") line = true) := by
      rw [hcr]
      exact Bool.false_ne_true
    constructor
    · show (if strEndsWith (str " CR") line then parseNumStr amtStr
            else -(abs (parseNumStr amtStr))) ≤ 0
      rw [if_neg hneq]
      exact neg_nonpos.mpr (abs_nonneg _)
    · intro h0
      show (if strEndsWith (str " CR") line then parseNumStr amtStr
            else -(abs (parseNumStr amtStr))) < 0
      rw [if_neg hneq]
      exact neg_lt_zero.mpr (abs_pos.mpr h0)
  · intro hcr
    constructor
    · show (0 : ℚ) ≤ (if strEndsWith (str " CR") line then parseNumStr amtStr
            else -(abs (parseNumStr amtStr)))
      rw [if_pos hcr]
      exact hnn
    · intro h0
      show (0 : ℚ) < (if strEndsWith (str " CR") line then parseNumStr amtStr
            else -(abs (parseNumStr amtStr)))
      rw [if_pos hcr]
      exact lt_of_le_of_ne hnn (Ne.symm h0)

/-- A plain credit purchase row (no `CR`). -/
def c6Line : Str := str "01 DEC  30 NOV  GIANT-KIM KEAT Singapore  3.85"

/-- Running state with an active card. -/
def c6St : CreditSt := ⟨str "UOB ONE CARD", []⟩

/-- Witness for C6 at the concrete purchase row: the date comes from the
second capture `30 NOV` and the amount is forced negative. -/
theorem C6_credit_row_date_and_sign_witness :
    ∃ t : RawTx, creditTextLineStep (some 2025) c6Line c6St
        = ⟨c6St.card, c6St.txs ++ [t]⟩ ∧
      t.date = creditParseStatementDate (str "30 NOV") (some 2025) ∧
      (strEndsWith (str " CR") c6Line = false →
        t.amount ≤ 0 ∧ (parseNumStr (str "3.85") ≠ 0 → t.amount < 0)) ∧
      (strEndsWith (str " CR") c6Line = true →
        0 ≤ t.amount ∧ (parseNumStr (str "3.85") ≠ 0 → 0 < t.amount)) :=
  C6_credit_row_date_and_sign (some 2025) c6Line c6St (str "01 DEC")
    (str "30 NOV") (str "GIANT-KIM KEAT Singapore") (str "3.85")
    (by decide) (by decide) (by decide) (by decide) (by decide)

/-- **C6 counterexample.**  A `0.00` row without `CR` is emitted with
amount `0`, which is not negative, refuting the strict "amount is
negative when the CR suffix is absent" reading. -/
theorem C6_zero_amount_counterexample :
    ((creditParseTextOnly 2025
        (str "UOB ONE CARD\n01 DEC 30 NOV FOO 0.00")).transactions.map
      (fun t => t.amount)) = [0] ∧ ¬ ((0 : ℚ) < 0) :=
  ⟨by decide, by decide⟩

/-! ## C10: card tagging -/

theorem detectCardHeader_ne_nil {l t : Str} (h : detectCardHeader l = some t) :
    t ≠ [] := by
  intro ht0
  subst ht0
  simp only [detectCardHeader] at h
  split at h
  · rename_i hcond
    have hj : jsTrim l = [] := Option.some.inj h
    rw [hj] at hcond
    exact absurd hcond (by decide)
  · exact absurd h (by simp)

theorem creditTextLineStep_tags (y : Option ℤ) (l : Str) (st : CreditSt) :
    ∀ tx ∈ (creditTextLineStep y l st).txs,
      tx ∈ st.txs ∨ (tx.tag = some st.card ∧ st.card ≠ []) := by
  intro tx htx
  simp only [creditTextLineStep] at htx
  by_cases hne : l = []
  · rw [if_pos hne] at htx
    exact Or.inl htx
  · rw [if_neg hne] at htx
    cases hh : detectCardHeader l with
    | some t =>
      simp only [hh] at htx
      exact Or.inl htx
    | none =>
      simp only [hh] at htx
      by_cases hs : shouldSkipLine l = true
      · rw [if_pos hs] at htx
        exact Or.inl htx
      · rw [if_neg hs] at htx
        cases hm : creditTxMatch l with
        | none =>
          simp only [hm] at htx
          exact Or.inl htx
        | some m =>
          simp only [hm] at htx
          by_cases hc : st.card ≠ []
          · rw [if_pos hc] at htx
            rcases List.mem_append.mp htx with h1 | h2
            · exact Or.inl h1
            · refine Or.inr ⟨?_, hc⟩
              rw [List.mem_singleton.mp h2]
          · rw [if_neg hc] at htx
            exact Or.inl htx

theorem creditTextLineStep_card (y : Option ℤ) (l : Str) (st : CreditSt) :
    (creditTextLineStep y l st).card
      = match detectCardHeader l with
        | some t => t
        | none => st.card := by
  simp only [creditTextLineStep]
  by_cases hne : l = []
  · rw [if_pos hne]
    have hh : detectCardHeader l = none := by
      rw [hne]
      decide
    simp only [hh]
  · rw [if_neg hne]
    cases hh : detectCardHeader l with
    | some t => simp only [hh]
    | none =>
      simp only [hh]
      by_cases hs : shouldSkipLine l = true
      · rw [if_pos hs]
      · rw [if_neg hs]
        cases hm : creditTxMatch l with
        | none => simp only [hm]
        | some m =>
          simp only [hm]
          by_cases hc : st.card ≠ []
          · rw [if_pos hc]
          · rw [if_neg hc]

theorem creditTextLineStep_none (y : Option ℤ) (l : Str)
    (hh : detectCardHeader l = none) :
    creditTextLineStep y l ⟨[], []⟩ = ⟨[], []⟩ := by
  simp only [creditTextLineStep]
  by_cases hne : l = []
  · rw [if_pos hne]
  · rw [if_neg hne]
    simp only [hh]
    by_cases hs : shouldSkipLine l = true
    · rw [if_pos hs]
    · rw [if_neg hs]
      cases hm : creditTxMatch l with
      | none => simp only [hm]
      | some m =>
        simp only [hm]
        rw [if_neg (fun hc => hc rfl)]

theorem creditTextFold_tags (y : Option ℤ) :
    ∀ (lines : List Str) (st : CreditSt),
      ∀ tx ∈ (lines.foldl (fun s l => creditTextLineStep y (jsTrim l) s) st).txs,
        tx ∈ st.txs ∨ (tx.tag = some st.card ∧ st.card ≠ []) ∨
        (∃ t, tx.tag = some t ∧ t ≠ [] ∧
          ∃ l ∈ lines, detectCardHeader (jsTrim l) = some t) := by
  intro lines
  induction lines with
  | nil =>
    intro st tx htx
    exact Or.inl htx
  | cons l ls ih =>
    intro st tx htx
    rw [List.foldl_cons] at htx
    have hcard := creditTextLineStep_card y (jsTrim l) st
    rcases ih (creditTextLineStep y (jsTrim l) st) tx htx with h1 | h2 | h3
    · rcases creditTextLineStep_tags y (jsTrim l) st tx h1 with ha | hb
      · exact Or.inl ha
      · exact Or.inr (Or.inl hb)
    · obtain ⟨h2a, h2b⟩ := h2
      cases hh : detectCardHeader (jsTrim l) with
      | some t =>
        simp only [hh] at hcard
        rw [hcard] at h2a
        exact Or.inr (Or.inr ⟨t, h2a, detectCardHeader_ne_nil hh, l,
          List.mem_cons_self _ _, hh⟩)
      | none =>
        simp only [hh] at hcard
        rw [hcard] at h2a h2b
        exact Or.inr (Or.inl ⟨h2a, h2b⟩)
    · obtain ⟨t, ht1, ht2, l2, hl2, hdet⟩ := h3
      exact Or.inr (Or.inr ⟨t, ht1, ht2, l2, List.mem_cons_of_mem _ hl2, hdet⟩)

theorem creditTextFold_seg (y : Option ℤ) :
    ∀ (lines : List Str) (st : CreditSt),
      (∀ l ∈ lines, detectCardHeader (jsTrim l) = none) →
      ∀ tx ∈ (lines.foldl (fun s l => creditTextLineStep y (jsTrim l) s) st).txs,
        tx ∈ st.txs ∨ tx.tag = some st.card := by
  intro lines
  induction lines with
  | nil =>
    intro st h tx htx
    exact Or.inl htx
  | cons l ls ih =>
    intro st h tx htx
    rw [List.foldl_cons] at htx
    have hh : detectCardHeader (jsTrim l) = none := h l (List.mem_cons_self _ _)
    have hcard : (creditTextLineStep y (jsTrim l) st).card = st.card := by
      rw [creditTextLineStep_card]
      simp only [hh]
    rcases ih (creditTextLineStep y (jsTrim l) st)
        (fun x hx => h x (List.mem_cons_of_mem _ hx)) tx htx with h1 | h2
    · rcases creditTextLineStep_tags y (jsTrim l) st tx h1 with ha | hb
      · exact Or.inl ha
      · exact Or.inr hb.1
    · rw [hcard] at h2
      exact Or.inr h2

theorem creditTextFold_no_header (y : Option ℤ) :
    ∀ (lines : List Str),
      (∀ l ∈ lines, detectCardHeader (jsTrim l) = none) →
      lines.foldl (fun s l => creditTextLineStep y (jsTrim l) s) ⟨[], []⟩
        = ⟨[], []⟩ := by
  intro lines
  induction lines with
  | nil =>
    intro h
    rfl
  | cons l ls ih =>
    intro h
    rw [List.foldl_cons,
      creditTextLineStep_none y (jsTrim l) (h l (List.mem_cons_self _ _))]
    exact ih (fun x hx => h x (List.mem_cons_of_mem _ hx))

theorem modifyLastDesc_tags : ∀ (txs : List RawTx) (sfx : Str),
    ∀ tx ∈ modifyLastDesc txs sfx, ∃ tx0 ∈ txs, tx.tag = tx0.tag := by
  intro txs
  induction txs with
  | nil =>
    intro sfx tx htx
    exact absurd htx (List.not_mem_nil _)
  | cons t ts ih =>
    intro sfx tx htx
    cases ts with
    | nil =>
      simp only [modifyLastDesc] at htx
      have he := List.mem_singleton.mp htx
      exact ⟨t, List.mem_cons_self _ _, by rw [he]⟩
    | cons t2 ts2 =>
      simp only [modifyLastDesc] at htx
      rcases List.mem_cons.mp htx with he | hr
      · exact ⟨t, List.mem_cons_self _ _, by rw [he]⟩
      · obtain ⟨tx0, htx0, htag⟩ := ih sfx tx hr
        exact ⟨tx0, List.mem_cons_of_mem _ htx0, htag⟩

theorem creditDedupGo_subset : ∀ (txs : List RawTx) (seen : List Str),
    ∀ tx ∈ creditDedupGo seen txs, tx ∈ txs := by
  intro txs
  induction txs with
  | nil =>
    intro seen tx htx
    exact absurd htx (List.not_mem_nil _)
  | cons t ts ih =>
    intro seen tx htx
    simp only [creditDedupGo] at htx
    by_cases hc : seen.contains (creditTxKeyStr t) = true
    · rw [if_pos hc] at htx
      exact List.mem_cons_of_mem _ (ih _ tx htx)
    · rw [if_neg hc] at htx
      rcases List.mem_cons.mp htx with he | hr
      · rw [he]
        exact List.mem_cons_self _ _
      · exact List.mem_cons_of_mem _ (ih _ tx hr)

theorem creditPositionalStep_tags (y : Option ℤ) (line : PDFLine) (text : Str)
    (st st' : CreditSt)
    (h : creditPositionalStep y line text st = Except.ok st') :
    st'.card = st.card ∧
    ∀ tx ∈ st'.txs, tx ∈ st.txs ∨ (tx.tag = some st.card ∧ st.card ≠ []) := by
  simp only [creditPositionalStep] at h
  by_cases hc : (matchDDMon text).isSome = true ∧ st.card ≠ []
  · rw [if_pos hc] at h
    split at h
    · split at h
      · exact absurd h (by simp)
      · split at h
        · obtain rfl := Except.ok.inj h
          refine ⟨rfl, ?_⟩
          intro tx htx
          rcases List.mem_append.mp htx with h1 | h2
          · exact Or.inl h1
          · refine Or.inr ⟨?_, hc.2⟩
            rw [List.mem_singleton.mp h2]
        · obtain rfl := Except.ok.inj h
          exact ⟨rfl, fun tx htx => Or.inl htx⟩
    · obtain rfl := Except.ok.inj h
      exact ⟨rfl, fun tx htx => Or.inl htx⟩
  · rw [if_neg hc] at h
    obtain rfl := Except.ok.inj h
    exact ⟨rfl, fun tx htx => Or.inl htx⟩

theorem creditPositionalStep_empty (y : Option ℤ) (line : PDFLine) (text : Str) :
    creditPositionalStep y line text ⟨[], []⟩ = Except.ok ⟨[], []⟩ := by
  simp only [creditPositionalStep]
  rw [if_neg (fun hc => hc.2 rfl)]

theorem creditLayoutStep_tags (y : Option ℤ) (line : PDFLine) (st st' : CreditSt)
    (h : creditLayoutStep y line st = Except.ok st') :
    st'.card = st.card ∧
    ∀ tx ∈ st'.txs,
      (∃ tx0 ∈ st.txs, tx.tag = tx0.tag) ∨
      (tx.tag = some st.card ∧ st.card ≠ []) := by
  simp only [creditLayoutStep] at h
  split at h
  · obtain rfl := Except.ok.inj h
    exact ⟨rfl, fun tx htx => Or.inl ⟨tx, htx, rfl⟩⟩
  · split at h
    · obtain rfl := Except.ok.inj h
      refine ⟨rfl, ?_⟩
      intro tx htx
      obtain ⟨tx0, htx0, htag⟩ := modifyLastDesc_tags st.txs _ tx htx
      exact Or.inl ⟨tx0, htx0, htag⟩
    · split at h
      · obtain rfl := Except.ok.inj h
        exact ⟨rfl, fun tx htx => Or.inl ⟨tx, htx, rfl⟩⟩
      · split at h
        · split at h
          · rename_i hcard
            obtain rfl := Except.ok.inj h
            refine ⟨rfl, ?_⟩
            intro tx htx
            rcases List.mem_append.mp htx with h1 | h2
            · exact Or.inl ⟨tx, h1, rfl⟩
            · refine Or.inr ⟨?_, hcard⟩
              rw [List.mem_singleton.mp h2]
          · obtain ⟨hcard, htags⟩ := creditPositionalStep_tags y line _ st st' h
            exact ⟨hcard, fun tx htx => (htags tx htx).elim
              (fun h1 => Or.inl ⟨tx, h1, rfl⟩) Or.inr⟩
        · obtain ⟨hcard, htags⟩ := creditPositionalStep_tags y line _ st st' h
          exact ⟨hcard, fun tx htx => (htags tx htx).elim
            (fun h1 => Or.inl ⟨tx, h1, rfl⟩) Or.inr⟩

theorem creditLayoutStep_empty (y : Option ℤ) (line : PDFLine) :
    creditLayoutStep y line ⟨[], []⟩ = Except.ok ⟨[], []⟩ := by
  simp only [creditLayoutStep]
  split
  · rfl
  · split
    · rename_i hfor
      exact absurd hfor (by cases matchForeign (jsTrim line.text) <;> simp)
    · split
      · rfl
      · split
        · rw [if_neg (fun hc => hc rfl)]
          exact creditPositionalStep_empty y line _
        · exact creditPositionalStep_empty y line _

theorem creditLayoutLoop_tags (y : Option ℤ) (fuel : Nat) :
    ∀ (lines : List PDFLine) (st st' : CreditSt),
      creditLayoutLoop y fuel lines st = Except.ok st' →
      ∀ tx ∈ st'.txs,
        (∃ tx0 ∈ st.txs, tx.tag = tx0.tag) ∨
        (tx.tag = some st.card ∧ st.card ≠ []) ∨
        (∃ t, tx.tag = some t ∧ t ≠ [] ∧
          ∃ l ∈ lines, detectCardHeader (jsTrim l.text) = some t) := by
  induction fuel with
  | zero =>
    intro lines st st' h tx htx
    have h2 : Except.ok st = Except.ok st' := h
    obtain rfl := Except.ok.inj h2
    exact Or.inl ⟨tx, htx, rfl⟩
  | succ n ih =>
    intro lines st st' h tx htx
    cases lines with
    | nil =>
      have h2 : Except.ok st = Except.ok st' := h
      obtain rfl := Except.ok.inj h2
      exact Or.inl ⟨tx, htx, rfl⟩
    | cons line rest =>
      simp only [creditLayoutLoop] at h
      by_cases hemp : jsTrim line.text = []
      · rw [if_pos hemp] at h
        rcases ih rest st st' h tx htx with h1 | h2 | h3
        · exact Or.inl h1
        · exact Or.inr (Or.inl h2)
        · obtain ⟨t, ht1, ht2, l, hl, hdet⟩ := h3
          exact Or.inr (Or.inr ⟨t, ht1, ht2, l, List.mem_cons_of_mem _ hl, hdet⟩)
      · rw [if_neg hemp] at h
        cases hhd : detectCardHeader (jsTrim line.text) with
        | some t =>
          have htne : t ≠ [] := detectCardHeader_ne_nil hhd
          simp only [hhd] at h
          cases rest with
          | nil =>
            have h2 : Except.ok (⟨t, st.txs⟩ : CreditSt) = Except.ok st' := h
            obtain rfl := Except.ok.inj h2
            exact Or.inl ⟨tx, htx, rfl⟩
          | cons next rest2 =>
            have h2 : (if isCardNumberRow (jsTrim next.text) then
                creditLayoutLoop y n rest2 ⟨t, st.txs⟩
              else creditLayoutLoop y n (next :: rest2) ⟨t, st.txs⟩)
                = Except.ok st' := h
            by_cases hcn : isCardNumberRow (jsTrim next.text) = true
            · rw [if_pos hcn] at h2
              rcases ih rest2 ⟨t, st.txs⟩ st' h2 tx htx with h1 | hmid | h3
              · obtain ⟨tx0, htx0, htag⟩ := h1
                exact Or.inl ⟨tx0, htx0, htag⟩
              · exact Or.inr (Or.inr ⟨t, hmid.1, htne, line,
                  List.mem_cons_self _ _, hhd⟩)
              · obtain ⟨t2, ht1, ht2, l, hl, hdet⟩ := h3
                exact Or.inr (Or.inr ⟨t2, ht1, ht2, l,
                  List.mem_cons_of_mem _ (List.mem_cons_of_mem _ hl), hdet⟩)
            · rw [if_neg hcn] at h2
              rcases ih (next :: rest2) ⟨t, st.txs⟩ st' h2 tx htx with h1 | hmid | h3
              · obtain ⟨tx0, htx0, htag⟩ := h1
                exact Or.inl ⟨tx0, htx0, htag⟩
              · exact Or.inr (Or.inr ⟨t, hmid.1, htne, line,
                  List.mem_cons_self _ _, hhd⟩)
              · obtain ⟨t2, ht1, ht2, l, hl, hdet⟩ := h3
                exact Or.inr (Or.inr ⟨t2, ht1, ht2, l,
                  List.mem_cons_of_mem _ hl, hdet⟩)
        | none =>
          simp only [hhd] at h
          cases hstep : creditLayoutStep y line st with
          | error e =>
            simp only [hstep] at h
            exact absurd h (by simp)
          | ok st1 =>
            simp only [hstep] at h
            obtain ⟨hcard1, htags1⟩ := creditLayoutStep_tags y line st st1 hstep
            rcases ih rest st1 st' h tx htx with h1 | h2 | h3
            · obtain ⟨tx0, htx0, htag⟩ := h1
              rcases htags1 tx0 htx0 with ⟨tx1, htx1, htag1⟩ | ⟨htag1, hc1⟩
              · exact Or.inl ⟨tx1, htx1, htag.trans htag1⟩
              · exact Or.inr (Or.inl ⟨htag.trans htag1, hc1⟩)
            · obtain ⟨h2a, h2b⟩ := h2
              rw [hcard1] at h2a h2b
              exact Or.inr (Or.inl ⟨h2a, h2b⟩)
            · obtain ⟨t, ht1, ht2, l, hl, hdet⟩ := h3
              exact Or.inr (Or.inr ⟨t, ht1, ht2, l,
                List.mem_cons_of_mem _ hl, hdet⟩)

theorem creditLayoutLoop_no_header (y : Option ℤ) (fuel : Nat) :
    ∀ (lines : List PDFLine),
      (∀ l ∈ lines, detectCardHeader (jsTrim l.text) = none) →
      creditLayoutLoop y fuel lines ⟨[], []⟩ = Except.ok ⟨[], []⟩ := by
  induction fuel with
  | zero =>
    intro lines h
    rfl
  | succ n ih =>
    intro lines h
    cases lines with
    | nil => rfl
    | cons line rest =>
      simp only [creditLayoutLoop]
      by_cases hemp : jsTrim line.text = []
      · rw [if_pos hemp]
        exact ih rest (fun l hl => h l (List.mem_cons_of_mem _ hl))
      · rw [if_neg hemp]
        simp only [h line (List.mem_cons_self _ _), creditLayoutStep_empty]
        exact ih rest (fun l hl => h l (List.mem_cons_of_mem _ hl))

/-- **C10.**  Credit-card parser tagging invariant, for both paths.
(1) Text-only path: every emitted transaction carries a non-empty tag
that is the trimmed text of some input line recognised as a card-section
header, and an input with no card-header line yields no transactions at
all (so rows before the first header never produce one).  (2) Across any
header-free run of lines, every newly emitted transaction is tagged with
the card that was current when the run began — the most recently seen
header.  (3) Layout path: the same header-origin and no-header-means-
no-transactions properties for a successful `parseWithLayout`.
(4) The header-free-run property for the layout loop. -/
theorem C10_credit_card_tagging :
    (∀ (y : ℤ) (text : Str),
      (∀ tx ∈ (creditParseTextOnly y text).transactions,
        ∃ t, tx.tag = some t ∧ t ≠ [] ∧
          ∃ l ∈ splitNl text, detectCardHeader (jsTrim l) = some t) ∧
      ((∀ l ∈ splitNl text, detectCardHeader (jsTrim l) = none) →
        (creditParseTextOnly y text).transactions = [])) ∧
    (∀ (y : Option ℤ) (lines : List Str) (st : CreditSt),
      (∀ l ∈ lines, detectCardHeader (jsTrim l) = none) →
      ∀ tx ∈ (lines.foldl (fun s l => creditTextLineStep y (jsTrim l) s) st).txs,
        tx ∈ st.txs ∨ tx.tag = some st.card) ∧
    (∀ (ny : ℤ) (lines : List PDFLine) (text : Str) (ps : ParsedStatement),
      parseUOBCreditCardLayout ny lines text = Except.ok ps →
      (∀ tx ∈ ps.transactions,
        ∃ t, tx.tag = some t ∧ t ≠ [] ∧
          ∃ l ∈ lines, detectCardHeader (jsTrim l.text) = some t) ∧
      ((∀ l ∈ lines, detectCardHeader (jsTrim l.text) = none) →
        ps.transactions = [])) ∧
    (∀ (y : Option ℤ) (fuel : Nat) (lines : List PDFLine) (st st' : CreditSt),
      (∀ l ∈ lines, detectCardHeader (jsTrim l.text) = none) →
      creditLayoutLoop y fuel lines st = Except.ok st' →
      ∀ tx ∈ st'.txs,
        (∃ tx0 ∈ st.txs, tx.tag = tx0.tag) ∨ tx.tag = some st.card) := by
  refine ⟨?_, ?_, ?_, ?_⟩
  · intro y text
    constructor
    · intro tx htx
      have htx2 : tx ∈ ((splitNl text).foldl
          (fun s l => creditTextLineStep (some y) (jsTrim l) s)
          (⟨[], []⟩ : CreditSt)).txs := htx
      rcases creditTextFold_tags (some y) (splitNl text) ⟨[], []⟩ tx htx2
        with h1 | h2 | h3
      · exact absurd h1 (List.not_mem_nil _)
      · exact absurd h2.2 (by decide)
      · exact h3
    · intro hnh
      show ((splitNl text).foldl
          (fun s l => creditTextLineStep (some y) (jsTrim l) s)
          (⟨[], []⟩ : CreditSt)).txs = []
      rw [creditTextFold_no_header (some y) (splitNl text) hnh]
  · intro y lines st hnh tx htx
    exact creditTextFold_seg y lines st hnh tx htx
  · intro ny lines text ps hok
    simp only [parseUOBCreditCardLayout] at hok
    split at hok
    · exact absurd hok (by simp)
    · rename_i st hloop
      have htr : ps.transactions = creditDedupGo [] st.txs := by
        rw [← Except.ok.inj hok]
      constructor
      · intro tx htx
        rw [htr] at htx
        have htx2 := creditDedupGo_subset st.txs [] tx htx
        rcases creditLayoutLoop_tags _ lines.length lines ⟨[], []⟩ st hloop tx htx2
          with h1 | h2 | h3
        · obtain ⟨tx0, htx0, _⟩ := h1
          exact absurd htx0 (List.not_mem_nil _)
        · exact absurd h2.2 (by decide)
        · exact h3
      · intro hnh
        rw [creditLayoutLoop_no_header _ lines.length lines hnh] at hloop
        obtain rfl := Except.ok.inj hloop
        rw [htr]
        rfl
  · intro y fuel lines st st' hnh hok tx htx
    rcases creditLayoutLoop_tags y fuel lines st st' hok tx htx with h1 | h2 | h3
    · exact Or.inl h1
    · exact Or.inr h2.1
    · obtain ⟨t, _, _, l, hl, hdet⟩ := h3
      rw [hnh l hl] at hdet
      exact absurd hdet (by simp)

/-- A two-line credit statement: a card header, then one purchase row. -/
def c10Text : Str := str "UOB ONE CARD\n01 DEC 30 NOV FOO 3.85"

/-- Witness for C10: the single transaction parsed from `c10Text` is
tagged with the (non-empty) header line `UOB ONE CARD`, and a text with
no header lines yields no transactions. -/
theorem C10_credit_card_tagging_witness :
    (∃ t, (⟨str "2025-11-30", str "FOO", -(mkRat 385 100), 0,
        some (str "UOB ONE CARD")⟩ : RawTx).tag = some t ∧ t ≠ [] ∧
      ∃ l ∈ splitNl c10Text, detectCardHeader (jsTrim l) = some t) ∧
    (creditParseTextOnly 2025 noMarkerText).transactions = [] :=
  ⟨(C10_credit_card_tagging.1 2025 c10Text).1 _ (by decide),
   (C10_credit_card_tagging.1 2025 noMarkerText).2 (by decide)⟩
